import Mathlib

/-!
# SnagTheFlag — verification of the combat/turn core

Shallow embedding of the tile grid, breadth-first pathfinder, character
state, splash/bullet damage application, the turn/action state machine
(`GameManager.onAction`) and the AI action planner of the SnagTheFlag
repository, together with proofs and refutations of the frozen claims
about them.

Translation conventions:
* TS `number` values used as tile coordinates become `Int`; health,
  damage and angles become `ℚ` (the claims never depend on float
  rounding).
* Methods that mutate `this` become functions `State → State`; methods
  that can `throw` return the state as mutated up to the throw point
  together with `Option String` (the thrown message), mirroring the
  fact that a TS exception leaves all mutations made before the throw
  in place.
* Rendering, HUD text, particle systems, animation interpolation and
  the control map are presentation-only (spec §1, §6) and are omitted.
-/

namespace SnagTheFlag

/-- 2D integer point, from `src/app/math/point.ts` (file not under
`src/`; its operations are reconstructed from their uses in `grid.ts`,
`character.ts`, `game_manager.ts` and `ai.ts`, and from the spec's
"TileCoord: integer pair"). -/
structure Point where
  x : Int
  y : Int
deriving DecidableEq, Repr

namespace Point

/-- `Point.add`. -/
def add (a b : Point) : Point := ⟨a.x + b.x, a.y + b.y⟩

/-- `Point.equals`. -/
def equals (a b : Point) : Bool := a.x == b.x && a.y == b.y

/-- `Point.manhattanDistanceTo`: `|dx| + |dy|`. -/
def manhattanDistanceTo (a b : Point) : Nat :=
  (a.x - b.x).natAbs + (a.y - b.y).natAbs

theorem equals_iff (a b : Point) : a.equals b = true ↔ a = b := by
  cases a; cases b
  simp [equals, Point.mk.injEq]

end Point

/-- `UP` from `src/app/math/direction.ts`. Modelled from the spec: the
direction constants file is not under `src/`; canvas coordinates grow
rightward and downward, so "up" decrements `y`. -/
def UP : Point := ⟨0, -1⟩

/-- `DOWN` (see `UP`). -/
def DOWN : Point := ⟨0, 1⟩

/-- `LEFT` (see `UP`). -/
def LEFT : Point := ⟨-1, 0⟩

/-- `RIGHT` (see `UP`). -/
def RIGHT : Point := ⟨1, 0⟩

namespace Grid

/-- `Grid.TILES_WIDE = RENDER_SETTINGS.canvasWidth / Grid.TILE_SIZE`.
Modelled from the spec: `render_settings.ts` is not under `src/`; the
spec only requires a bounded grid ("TileCoord ... bounded by grid
width/height"), so a concrete 20×15 play area is fixed here. No claim
depends on the exact bounds. -/
def TILES_WIDE : Int := 20

/-- `Grid.TILES_TALL` (see `TILES_WIDE`). -/
def TILES_TALL : Int := 15

/-- `Grid.inbounds`. -/
def inbounds (tileCoords : Point) : Bool :=
  tileCoords.x >= 0 && tileCoords.x < TILES_WIDE &&
    tileCoords.y >= 0 && tileCoords.y < TILES_TALL

/-- `Grid.getAdjacentTiles`: the in-bounds orthogonal neighbors, in the
source's push order `UP, DOWN, LEFT, RIGHT`. -/
def getAdjacentTiles (tileCoords : Point) : List Point :=
  ((if inbounds (tileCoords.add UP) then [tileCoords.add UP] else []) ++
    (if inbounds (tileCoords.add DOWN) then [tileCoords.add DOWN] else [])) ++
    ((if inbounds (tileCoords.add LEFT) then [tileCoords.add LEFT] else []) ++
      (if inbounds (tileCoords.add RIGHT) then [tileCoords.add RIGHT] else []))

theorem length_getAdjacentTiles_le (t : Point) :
    (getAdjacentTiles t).length ≤ 4 := by
  unfold getAdjacentTiles
  split <;> split <;> split <;> split <;> simp

/-- Tile-size-free canvas→tile map (`Grid.getTileFromCanvasCoords` with
`TILE_SIZE = 40`), used by the AI embedding; canvas points appearing in
the embedded code are always integer-valued tile centers. -/
def getTileFromCanvasCoords (canvasCoords : Point) : Point :=
  ⟨canvasCoords.x / 40, canvasCoords.y / 40⟩

/-- `Grid.getCanvasFromTileCoords` followed by `.add(Grid.HALF_TILE)`,
the tile-center canvas point with `TILE_SIZE = 40`. -/
def tileCenterCanvas (tile : Point) : Point :=
  ⟨tile.x * 40 + 20, tile.y * 40 + 20⟩

end Grid

/-- `QueuedTile` from `grid.ts`. -/
structure QueuedTile where
  depth : Nat
  coords : Point
deriving DecidableEq, Repr

/-- Fuel bound for the `bfs` loop: each queued tile of depth `d` weighs
`5 ^ (maxDepth + 1 - d)`; each loop iteration removes one entry's
weight and adds at most four entries of the next depth, each weighing a
fifth of it, so the total strictly decreases (see
`bfsMeasure_decreases`). -/
def bfsMeasure (maxDepth : Nat) (queue : List QueuedTile) : Nat :=
  (queue.map (fun qt => 5 ^ (maxDepth + 1 - qt.depth))).sum

/-- The new queue entries pushed for a dequeued tile (`grid.ts` lines
78–84): the in-bounds neighbors that are not yet in `availableTiles`,
each at the next depth. Note the source's duplicate check consults
`availableTiles` — the output list — not a visited set. -/
def bfsNewEntries (qt : QueuedTile) (availableTiles : List Point) : List QueuedTile :=
  ((Grid.getAdjacentTiles qt.coords).filter
    (fun adjacentTile =>
      !(availableTiles.any (fun tile => tile.equals adjacentTile)))).map
    (fun adjacentTile => QueuedTile.mk (qt.depth + 1) adjacentTile)

/-- The worker loop of `bfs` (`grid.ts` lines 70–85): dequeue, drop the
entry if too deep or blocked, append its tile to `availableTiles` when
`isAvailable`, then enqueue `bfsNewEntries`. The `fuel` argument makes
the recursion structural; `bfs` passes `bfsMeasure` of the initial
queue, which never runs out (`bfsAux_fuel_stable`), so this computes
exactly what the source's unbounded `while` loop computes. -/
def bfsAux (maxDepth : Nat) (isAvailable canGoThrough : Point → Bool) :
    Nat → List QueuedTile → List Point → List Point
  | _, [], availableTiles => availableTiles
  | 0, _ :: _, availableTiles => availableTiles
  | fuel + 1, qt :: rest, availableTiles =>
    if qt.depth > maxDepth || !canGoThrough qt.coords then
      bfsAux maxDepth isAvailable canGoThrough fuel rest availableTiles
    else
      let availableTiles' :=
        if isAvailable qt.coords then availableTiles ++ [qt.coords]
        else availableTiles
      bfsAux maxDepth isAvailable canGoThrough fuel
        (rest ++ bfsNewEntries qt availableTiles') availableTiles'

theorem bfsMeasure_decreases (maxDepth : Nat) (qt : QueuedTile)
    (rest : List QueuedTile) (avail : List Point)
    (hdep : qt.depth ≤ maxDepth) :
    bfsMeasure maxDepth (rest ++ bfsNewEntries qt avail)
      < bfsMeasure maxDepth (qt :: rest) := by
  simp only [bfsMeasure, List.map_cons, List.sum_cons, List.map_append,
    List.sum_append]
  have hsub : maxDepth + 1 - qt.depth = (maxDepth + 1 - (qt.depth + 1)) + 1 := by
    omega
  have hlen : (bfsNewEntries qt avail).length ≤ 4 := by
    have h1 : (bfsNewEntries qt avail).length
        ≤ (Grid.getAdjacentTiles qt.coords).length := by
      simp only [bfsNewEntries, List.length_map]
      exact List.length_filter_le _ _
    exact le_trans h1 (Grid.length_getAdjacentTiles_le _)
  have hsum : ((bfsNewEntries qt avail).map
      (fun e => 5 ^ (maxDepth + 1 - e.depth))).sum
      ≤ 4 * 5 ^ (maxDepth + 1 - (qt.depth + 1)) := by
    calc ((bfsNewEntries qt avail).map (fun e => 5 ^ (maxDepth + 1 - e.depth))).sum
        ≤ ((bfsNewEntries qt avail).map
            (fun _ => 5 ^ (maxDepth + 1 - (qt.depth + 1)))).sum := by
          apply List.sum_le_sum
          intro e he
          simp only [bfsNewEntries, List.mem_map] at he
          obtain ⟨a, _, rfl⟩ := he
          exact le_refl _
      _ = (bfsNewEntries qt avail).length * 5 ^ (maxDepth + 1 - (qt.depth + 1)) := by
          simp [List.map_const', List.sum_replicate, smul_eq_mul]
      _ ≤ 4 * 5 ^ (maxDepth + 1 - (qt.depth + 1)) :=
          Nat.mul_le_mul_right _ hlen
  have hgrow : 4 * 5 ^ (maxDepth + 1 - (qt.depth + 1))
      < 5 ^ (maxDepth + 1 - qt.depth) := by
    have hpos : 0 < 5 ^ (maxDepth + 1 - (qt.depth + 1)) :=
      Nat.pos_pow_of_pos _ (by omega)
    rw [hsub, pow_succ]
    omega
  omega

theorem bfsMeasure_rest_lt (maxDepth : Nat) (qt : QueuedTile)
    (rest : List QueuedTile) :
    bfsMeasure maxDepth rest < bfsMeasure maxDepth (qt :: rest) := by
  simp only [bfsMeasure, List.map_cons, List.sum_cons]
  have : 0 < 5 ^ (maxDepth + 1 - qt.depth) := Nat.pos_pow_of_pos _ (by omega)
  omega

/-- Any fuel at least `bfsMeasure` of the queue computes the same result:
the fuelled loop is the source's unbounded loop. -/
theorem bfsAux_fuel_stable (maxDepth : Nat)
    (isAvailable canGoThrough : Point → Bool) :
    ∀ fuel queue availableTiles, bfsMeasure maxDepth queue ≤ fuel →
      bfsAux maxDepth isAvailable canGoThrough fuel queue availableTiles
        = bfsAux maxDepth isAvailable canGoThrough (fuel + 1) queue availableTiles := by
  intro fuel
  induction fuel with
  | zero =>
    intro queue availableTiles hle
    cases queue with
    | nil => rfl
    | cons qt rest =>
      have := bfsMeasure_rest_lt maxDepth qt rest
      omega
  | succ fuel ih =>
    intro queue availableTiles hle
    cases queue with
    | nil => rfl
    | cons qt rest =>
      simp only [bfsAux]
      split
      · apply ih
        have := bfsMeasure_rest_lt maxDepth qt rest
        omega
      · rename_i hcond
        have hdep : qt.depth ≤ maxDepth := by
          simp only [Bool.or_eq_true, decide_eq_true_eq, Bool.not_eq_true'] at hcond
          omega
        apply ih
        have := bfsMeasure_decreases maxDepth qt rest
          (if isAvailable qt.coords then availableTiles ++ [qt.coords]
            else availableTiles) hdep
        omega

/-- `bfs` from `grid.ts`: seeds the queue with the in-bounds neighbors
of `startTile` at depth 1 and runs the worker loop on an empty result
list. -/
def bfs (startTile : Point) (maxDepth : Nat)
    (isAvailable canGoThrough : Point → Bool) : List Point :=
  let queue := (Grid.getAdjacentTiles startTile).map
    (fun tile => QueuedTile.mk 1 tile)
  bfsAux maxDepth isAvailable canGoThrough (bfsMeasure maxDepth queue) queue []

example : bfs ⟨5, 5⟩ 1 (fun _ => true) (fun _ => true)
    = [⟨5, 4⟩, ⟨5, 6⟩, ⟨4, 5⟩, ⟨6, 5⟩] := by decide

example : (bfs ⟨5, 5⟩ 2 (fun _ => true) (fun _ => true)).count ⟨5, 5⟩ = 4 := by
  decide

/-! ## Data model: projectiles, abilities, character settings

`shot_info.ts` and `character_settings.ts` are not under `src/`; the
structures below are reconstructed from their uses in `character.ts`,
`game_manager.ts` and `ai.ts` and from the spec §3
("ProjectileDetails: closed variant — simple bullet (damage, ricochet
count) or splash (damage, blast radius in tiles, per-tile falloff
multiplier)"; "a finite list of available extra abilities (heal,
grenade) each with uses-left and cooldown counters"). -/

/-- `SplashDamage` from `shot_info.ts` (see section comment). -/
structure SplashDamage where
  damage : ℚ
  damageManhattanDistanceRadius : Nat
  tilesAwayDamageReduction : ℚ
deriving DecidableEq, Repr

/-- `Bullet` from `shot_info.ts` (see section comment). -/
structure Bullet where
  damage : ℚ
  numRicochets : Nat
deriving DecidableEq, Repr

/-- `ProjectileDetails` from `shot_info.ts` (see section comment). -/
inductive ProjectileDetails
  | bullet (b : Bullet)
  | splash (s : SplashDamage)
deriving DecidableEq, Repr

/-- `projectileDetails.damage` (both variants carry a `damage` field). -/
def ProjectileDetails.damage : ProjectileDetails → ℚ
  | .bullet b => b.damage
  | .splash s => s.damage

/-- `CharacterAbilityType` from `character_settings.ts` (see section
comment). -/
inductive CharacterAbilityType
  | heal
  | throwGrenade
deriving DecidableEq, Repr

/-- Payload distinguishing `HealAbility` from `ThrowGrenadeAbility`
(`character_settings.ts`, see section comment). -/
inductive AbilityDetails
  | heal (healAmount : ℚ)
  | throwGrenade (splashDamage : SplashDamage) (maxManhattanDistance : Nat)
deriving DecidableEq, Repr

/-- `CharacterAbility` from `character_settings.ts` (see section
comment): shared fields plus the variant payload. The source keys
ability lookup both by `abilityType` and by `actionType`; the two tags
are in bijection and are modelled by the single `abilityType`. -/
structure CharacterAbility where
  details : AbilityDetails
  isFree : Bool
  /-- `maxUses = 0` means unlimited uses (the constructor then leaves
  `usesLeft` undefined). -/
  maxUses : Nat
  cooldownTurns : Int
deriving DecidableEq, Repr

/-- The ability's discriminant tag. -/
def CharacterAbility.abilityType (a : CharacterAbility) : CharacterAbilityType :=
  match a.details with
  | .heal _ => .heal
  | .throwGrenade _ _ => .throwGrenade

/-- `CharacterAbilityState` from `character_settings.ts` (see section
comment): `usesLeft` stays `none` for unlimited-use abilities. -/
structure CharacterAbilityState where
  usesLeft : Option Nat
  cooldownTurnsLeft : Int
deriving DecidableEq, Repr

/-- `Spray` gun attachment (`character_settings.ts`, see section
comment; used by `Character.shoot`). -/
structure Spray where
  projectiles : Nat
  offsetAngleRadians : ℚ
deriving DecidableEq, Repr

/-- `Gun` from `character_settings.ts` (see section comment; the
render-only `aimIndicatorLength` is omitted). -/
structure Gun where
  canFireAfterMoving : Bool
  projectileDetails : ProjectileDetails
  spray : Option Spray
deriving DecidableEq, Repr

/-- `CharacterSettings` from `character_settings.ts` (see section
comment; the render-only class symbol is omitted). -/
structure CharacterSettings where
  maxHealth : ℚ
  maxMovesPerTurn : Nat
  gun : Gun
  extraActions : List CharacterAbility
deriving DecidableEq, Repr

/-- `ShotInfo` from `shot_info.ts` (see section comment). The team is
recorded as an index (spec §3 "Character: team index"); the redundant
`fromCanvasCoords` (always the tile center) is omitted. -/
structure ShotInfo where
  fromTeamIndex : Nat
  fromTileCoords : Point
  aimAngleRadiansClockwise : ℚ
  projectileDetails : ProjectileDetails
deriving DecidableEq, Repr

/-- `Character` from `src/app/character.ts`, minus the render-only and
animation-interpolation state (spec §3 excludes it from combat logic).
The team is stored as `teamIndex` (spec §3); the checked `character.ts`
stores it as `isBlueTeam` while `game_manager.ts` and `ai.ts` address
teams by index. `abilityStates` is `characterActionTypeToAbilityState`
as an association list. -/
structure Character where
  teamIndex : Nat
  settings : CharacterSettings
  index : Nat
  hasMoved : Bool
  hasShot : Bool
  extraAbilities : List CharacterAbility
  isFinishedWithTurn : Bool
  isAiming : Bool
  aimAngleRadiansClockwise : ℚ
  hasFlag : Bool
  health : ℚ
  tileCoords : Point
  abilityStates : List (CharacterAbilityType × CharacterAbilityState)
deriving DecidableEq, Repr

namespace Character

/-- `Character.isAlive`: `health > 0`. -/
def isAlive (c : Character) : Bool := c.health > 0

/-- `Character.canShoot`. -/
def canShoot (c : Character) : Bool :=
  if c.isFinishedWithTurn then false
  else if !c.settings.gun.canFireAfterMoving && c.hasMoved then false
  else !c.hasShot

/-- `Character.setTurnOver`. -/
def setTurnOver (c : Character) : Character :=
  { c with isFinishedWithTurn := true, isAiming := false }

/-- `Character.isTurnOver`. -/
def isTurnOver (c : Character) : Bool := c.isFinishedWithTurn

/-- `Character.checkAndSetTurnOver` (`character.ts` lines 436–452):
already-finished characters and characters holding a free ability are
left alone; otherwise the turn ends when (moved ∧ (shot ∨ gun can't
fire after moving)) or (shot ∧ gun can't fire after moving). -/
def checkAndSetTurnOver (c : Character) : Character :=
  if c.isFinishedWithTurn then c
  else if c.extraAbilities.any (fun extraAbility => extraAbility.isFree) then c
  else if c.hasMoved && (c.hasShot || !c.settings.gun.canFireAfterMoving) then
    c.setTurnOver
  else if c.hasShot && !c.settings.gun.canFireAfterMoving then
    c.setTurnOver
  else c

/-- `Character.moveTo` (`character.ts` lines 258–269), without the
animation-path bookkeeping: throws when the turn is over or the
character already moved, otherwise updates the tile, marks `hasMoved`
and runs `checkAndSetTurnOver`. -/
def moveTo (c : Character) (tileCoords : Point) : Character × Option String :=
  if c.isFinishedWithTurn || c.hasMoved then
    (c, some "Already moved.")
  else
    (checkAndSetTurnOver { c with tileCoords := tileCoords, hasMoved := true },
      none)

/-- `Character.startAiming`: throws unless `canShoot`. -/
def startAiming (c : Character) : Character × Option String :=
  if !c.canShoot then (c, some "Already shot or used non-free action.")
  else ({ c with isAiming := true }, none)

/-- `Character.cancelAiming`. -/
def cancelAiming (c : Character) : Character := { c with isAiming := false }

/-- `Character.setAim`. Modelled from the spec: the checked
`character.ts` predates this mutator (it only has the keyboard
`aimClockwise` variants), but `game_manager.ts` and `ai.ts` call it;
per spec §3 the character holds "an aim angle", which this sets. -/
def setAim (c : Character) (angle : ℚ) : Character :=
  { c with aimAngleRadiansClockwise := angle }

/-- The `while` loop of `Character.shoot` that appends spray shots
until `spray.projectiles` shots exist; the parity of the current
length alternates the offset sign. `fuel` bounds the loop
structurally; `shoot` passes `spray.projectiles`, which suffices since
each iteration grows the list by one. -/
def sprayLoop (base : ShotInfo) (offsetAngleRadians : ℚ) (total : Nat) :
    Nat → List ShotInfo → List ShotInfo
  | 0, shotInfos => shotInfos
  | fuel + 1, shotInfos =>
    if shotInfos.length < total then
      let offsetDirection : ℚ := if shotInfos.length % 2 == 0 then 1 else -1
      sprayLoop base offsetAngleRadians total fuel
        (shotInfos ++ [{ base with
          aimAngleRadiansClockwise :=
            base.aimAngleRadiansClockwise + offsetAngleRadians * offsetDirection }])
    else shotInfos

/-- `Character.shoot` (`character.ts` lines 314–348): throws unless
`canShoot`; otherwise stops aiming, marks `hasShot`, drops every
non-free ability, runs `checkAndSetTurnOver` and returns the straight
shot plus any spray shots. -/
def shoot (c : Character) : Character × Option String × List ShotInfo :=
  if !c.canShoot then (c, some "Already shot or used non-free action.", [])
  else
    let c' := checkAndSetTurnOver
      { c with
        isAiming := false
        hasShot := true
        extraAbilities := c.extraAbilities.filter
          (fun ability => ability.isFree) }
    let straightShotInfo : ShotInfo :=
      { fromTeamIndex := c.teamIndex
        fromTileCoords := c.tileCoords
        aimAngleRadiansClockwise := c.aimAngleRadiansClockwise
        projectileDetails := c.settings.gun.projectileDetails }
    let shotInfos := match c.settings.gun.spray with
      | none => [straightShotInfo]
      | some spray =>
        sprayLoop straightShotInfo spray.offsetAngleRadians spray.projectiles
          spray.projectiles [straightShotInfo]
    (c', none, shotInfos)

/-- `Character.getGrenadeAbility`: the first grenade ability, `none`
when the source would throw. -/
def getGrenadeAbility (c : Character) : Option CharacterAbility :=
  c.extraAbilities.find? (fun ability => ability.abilityType == .throwGrenade)

/-- `Character.regenHealth` (`character.ts` lines 384–386). -/
def regenHealth (c : Character) (amount : ℚ) : Character :=
  { c with health := min (c.health + amount) c.settings.maxHealth }

/-- `Character.useAbility` (`character.ts` lines 359–382): look the
ability up (throw when absent), remove it from the per-turn list,
update its uses/cooldown state, and for a non-free ability also mark
`hasShot` and drop the other non-free abilities ("Character can't
shoot and use non-free actions in same turn"); finally
`checkAndSetTurnOver`. The two degenerate `!` lookups of the source
(ability state / settings entry missing) become errors at the point
the source would raise a `TypeError`. -/
def useAbility (c : Character) (abilityType : CharacterAbilityType) :
    Character × Option String :=
  match c.extraAbilities.find? (fun a => a.abilityType == abilityType) with
  | none => (c, some "Character doesn't have ability for ActionType")
  | some action =>
    let c1 := { c with extraAbilities :=
      c.extraAbilities.filter (fun a => !(a.abilityType == abilityType)) }
    match (c1.abilityStates.find? (fun p => p.1 == abilityType)) with
    | none => (c1, some "TypeError: ability state missing")
    | some (_, actionState) =>
      let actionState1 :=
        match actionState.usesLeft with
        | some n => if n ≠ 0 then { actionState with usesLeft := some (n - 1) }
            else actionState
        | none => actionState
      match c1.settings.extraActions.find?
          (fun extraAction => extraAction.abilityType == action.abilityType) with
      | none => (c1, some "TypeError: settings entry missing")
      | some extraAction =>
        let actionState2 := { actionState1 with
          cooldownTurnsLeft := extraAction.cooldownTurns }
        let c2 := { c1 with abilityStates :=
          c1.abilityStates.map (fun p =>
            if p.1 == abilityType then (p.1, actionState2) else p) }
        let c3 :=
          if !action.isFree then
            { c2 with
              hasShot := true
              extraAbilities := c2.extraAbilities.filter
                (fun ability => ability.isFree) }
          else c2
        (checkAndSetTurnOver c3, none)

/-- The loop body of `Character.resetTurnState`: walk `extraActions`,
re-granting each ability whose uses remain and whose cooldown expired,
and decrement every cooldown; a missing state entry is the source's
explicit throw. -/
def resetLoop : List CharacterAbility →
    List (CharacterAbilityType × CharacterAbilityState) → List CharacterAbility →
    (List CharacterAbility × List (CharacterAbilityType × CharacterAbilityState)
      × Option String)
  | [], states, acc => (acc, states, none)
  | extraAbility :: restActions, states, acc =>
    match states.find? (fun p => p.1 == extraAbility.abilityType) with
    | none => (acc, states, some "Didn't initialize characterActionsToState")
    | some (_, state) =>
      let acc' :=
        if state.usesLeft ≠ some 0 && state.cooldownTurnsLeft ≤ 0 then
          acc ++ [extraAbility]
        else acc
      let states' := states.map (fun p =>
        if p.1 == extraAbility.abilityType then
          (p.1, { p.2 with cooldownTurnsLeft := p.2.cooldownTurnsLeft - 1 })
        else p)
      resetLoop restActions states' acc'

/-- `Character.resetTurnState` (`character.ts` lines 419–434). -/
def resetTurnState (c : Character) : Character × Option String :=
  let c1 := { c with hasMoved := false, hasShot := false, extraAbilities := [] }
  match resetLoop c1.settings.extraActions c1.abilityStates [] with
  | (abilities, states, none) =>
    ({ c1 with
        extraAbilities := abilities
        abilityStates := states
        isFinishedWithTurn := false }, none)
  | (abilities, states, some e) =>
    ({ c1 with extraAbilities := abilities, abilityStates := states }, some e)

/-- The `Character` constructor (`character.ts` lines 44–74): full
health, fresh per-turn flags, one ability-state entry per configured
extra action (`usesLeft` only when `maxUses ≠ 0`), then
`resetTurnState`. -/
def mkCharacter (startCoords : Point) (teamIndex index : Nat)
    (settings : CharacterSettings) : Character × Option String :=
  let c : Character :=
    { teamIndex := teamIndex
      settings := settings
      index := index
      hasMoved := false
      hasShot := false
      extraAbilities := []
      isFinishedWithTurn := false
      isAiming := false
      aimAngleRadiansClockwise := 0
      hasFlag := false
      health := settings.maxHealth
      tileCoords := startCoords
      abilityStates := settings.extraActions.map (fun extraAction =>
        (extraAction.abilityType,
          { usesLeft := if extraAction.maxUses ≠ 0 then some extraAction.maxUses
              else none
            cooldownTurnsLeft := 0 })) }
  c.resetTurnState

end Character

/-! ## Damage application (`GameManager.updateProjectile`) -/

/-- The effect of `getAliveCharacters().find(at tile)` followed by a
mutation of the found character: update the first character in list
order that is alive and stands on `tile`. -/
def updateFirstAliveAt (tile : Point) (f : Character → Character) :
    List Character → List Character
  | [] => []
  | c :: rest =>
    if c.isAlive && c.tileCoords.equals tile then f c :: rest
    else c :: updateFirstAliveAt tile f rest

/-- The splash branch of `GameManager.updateProjectile` (`game_manager.ts`
lines 140–163): resolve the blast area with `bfs` (both predicates
always true, depth = blast tile radius) and, for each returned tile,
damage the first live character standing there by
`damage × falloff ^ (Manhattan distance to the impact tile)`. -/
def updateProjectileSplash (characters : List Character) (impactTile : Point)
    (sd : SplashDamage) : List Character :=
  let hitTiles := bfs impactTile sd.damageManhattanDistanceRadius
    (fun _ => true) (fun _ => true)
  hitTiles.foldl
    (fun cs hitTile =>
      updateFirstAliveAt hitTile
        (fun targetCharacter =>
          { targetCharacter with health := targetCharacter.health -
              sd.damage * sd.tilesAwayDamageReduction ^
                (targetCharacter.tileCoords.manhattanDistanceTo impactTile) })
        cs)
    characters

/-- The bullet branch of `GameManager.updateProjectile` (`game_manager.ts`
lines 164–172): the first live character on the final target tile,
unless it is the selected character (position `selIdx` in the list),
loses `damage` health. -/
def updateProjectileBullet (selIdx : Option Nat) (tile : Point) (damage : ℚ) :
    Nat → List Character → List Character
  | _, [] => []
  | i, c :: rest =>
    if c.isAlive && c.tileCoords.equals tile then
      if selIdx = some i then c :: rest
      else { c with health := c.health - damage } :: rest
    else c :: updateProjectileBullet selIdx tile damage (i + 1) rest

/-! ## Basic facts about character operations -/

namespace Character

theorem checkAndSetTurnOver_hasShot (c : Character) :
    (c.checkAndSetTurnOver).hasShot = c.hasShot := by
  unfold checkAndSetTurnOver setTurnOver
  split <;> [rfl; split <;> [rfl; split <;> [rfl; split <;> rfl]]]

theorem checkAndSetTurnOver_extraAbilities (c : Character) :
    (c.checkAndSetTurnOver).extraAbilities = c.extraAbilities := by
  unfold checkAndSetTurnOver setTurnOver
  split <;> [rfl; split <;> [rfl; split <;> [rfl; split <;> rfl]]]

theorem checkAndSetTurnOver_hasMoved (c : Character) :
    (c.checkAndSetTurnOver).hasMoved = c.hasMoved := by
  unfold checkAndSetTurnOver setTurnOver
  split <;> [rfl; split <;> [rfl; split <;> [rfl; split <;> rfl]]]

theorem checkAndSetTurnOver_health (c : Character) :
    (c.checkAndSetTurnOver).health = c.health := by
  unfold checkAndSetTurnOver setTurnOver
  split <;> [rfl; split <;> [rfl; split <;> [rfl; split <;> rfl]]]

theorem checkAndSetTurnOver_tileCoords (c : Character) :
    (c.checkAndSetTurnOver).tileCoords = c.tileCoords := by
  unfold checkAndSetTurnOver setTurnOver
  split <;> [rfl; split <;> [rfl; split <;> [rfl; split <;> rfl]]]

theorem canShoot_eq_false_of_hasShot (c : Character) (h : c.hasShot = true) :
    c.canShoot = false := by
  unfold canShoot
  split <;> [rfl; split <;> [rfl; simp [h]]]

end Character

/-! ## Reachability: soundness of the pathfinder output (claim C2) -/

/-- `ReachableVia go start d t`: there is a chain
`start, t₁, …, t_d = t` of orthogonally adjacent, in-bounds tiles
(membership in `Grid.getAdjacentTiles` enforces both) in which every
tile strictly between `start` and `t` satisfies `go`. -/
inductive ReachableVia (go : Point → Bool) (start : Point) : Nat → Point → Prop
  | base (t : Point) (ht : t ∈ Grid.getAdjacentTiles start) :
      ReachableVia go start 1 t
  | step (d : Nat) (p t : Point) (hp : ReachableVia go start d p)
      (hgo : go p = true) (ht : t ∈ Grid.getAdjacentTiles p) :
      ReachableVia go start (d + 1) t

theorem inbounds_of_mem_getAdjacentTiles {t p : Point}
    (h : t ∈ Grid.getAdjacentTiles p) : Grid.inbounds t = true := by
  unfold Grid.getAdjacentTiles at h
  simp only [List.mem_append] at h
  rcases h with (h | h) | (h | h) <;>
    · split at h <;> simp_all

theorem ReachableVia.inbounds {go : Point → Bool} {start : Point} {d : Nat}
    {t : Point} (h : ReachableVia go start d t) : Grid.inbounds t = true := by
  cases h with
  | base t ht => exact inbounds_of_mem_getAdjacentTiles ht
  | step d p t hp hgo ht => exact inbounds_of_mem_getAdjacentTiles ht

/-- Invariant of the `bfs` worker loop: if every queued tile is
reachable at its recorded depth and every already-output tile satisfies
the soundness property, then so does every tile of the final output. -/
theorem bfsAux_sound (maxDepth : Nat) (isAvailable canGoThrough : Point → Bool)
    (start : Point) :
    ∀ (fuel : Nat) (queue : List QueuedTile) (availableTiles : List Point),
      (∀ qt ∈ queue, ReachableVia canGoThrough start qt.depth qt.coords) →
      (∀ t ∈ availableTiles, ∃ d, d ≤ maxDepth ∧
        ReachableVia canGoThrough start d t ∧ canGoThrough t = true) →
      ∀ t ∈ bfsAux maxDepth isAvailable canGoThrough fuel queue availableTiles,
        ∃ d, d ≤ maxDepth ∧ ReachableVia canGoThrough start d t ∧
          canGoThrough t = true := by
  intro fuel
  induction fuel with
  | zero =>
    intro queue availableTiles _ ha t ht
    cases queue <;> exact ha t (by simpa [bfsAux] using ht)
  | succ fuel ih =>
    intro queue availableTiles hq ha t ht
    cases queue with
    | nil => exact ha t (by simpa [bfsAux] using ht)
    | cons qt rest =>
      simp only [bfsAux] at ht
      split at ht
      · exact ih rest availableTiles
          (fun e he => hq e (List.mem_cons_of_mem _ he)) ha t ht
      · rename_i hcond
        simp only [Bool.or_eq_true, decide_eq_true_eq, Bool.not_eq_true',
          not_or, Bool.not_eq_false] at hcond
        obtain ⟨hdepth, hgo⟩ := hcond
        have hdep : qt.depth ≤ maxDepth := by omega
        have hreach : ReachableVia canGoThrough start qt.depth qt.coords :=
          hq qt (List.mem_cons_self _ _)
        have ha' : ∀ t ∈ (if isAvailable qt.coords
            then availableTiles ++ [qt.coords] else availableTiles),
            ∃ d, d ≤ maxDepth ∧ ReachableVia canGoThrough start d t ∧
              canGoThrough t = true := by
          intro u hu
          split at hu
          · rcases List.mem_append.mp hu with hu | hu
            · exact ha u hu
            · have : u = qt.coords := by simpa using hu
              subst this
              exact ⟨qt.depth, hdep, hreach, hgo⟩
          · exact ha u hu
        have hq' : ∀ e ∈ rest ++ bfsNewEntries qt
            (if isAvailable qt.coords then availableTiles ++ [qt.coords]
              else availableTiles),
            ReachableVia canGoThrough start e.depth e.coords := by
          intro e he
          rcases List.mem_append.mp he with he | he
          · exact hq e (List.mem_cons_of_mem _ he)
          · simp only [bfsNewEntries, List.mem_map, List.mem_filter] at he
            obtain ⟨a, ⟨hadj, _⟩, rfl⟩ := he
            exact ReachableVia.step qt.depth qt.coords a hreach hgo hadj
        exact ih _ _ hq' ha' t ht

/-! ## Test fixtures (used by witnesses and counterexamples) -/

/-- A plain single-shot gun able to fire after moving. -/
def basicGun : Gun :=
  { canFireAfterMoving := true
    projectileDetails := .bullet { damage := 10, numRicochets := 0 }
    spray := none }

/-- A gun that cannot fire after moving (the sniper profile). -/
def noMoveFireGun : Gun :=
  { canFireAfterMoving := false
    projectileDetails := .bullet { damage := 15, numRicochets := 0 }
    spray := none }

/-- Plain character settings: 100 health, 4 moves, no extra abilities. -/
def basicSettings : CharacterSettings :=
  { maxHealth := 100, maxMovesPerTurn := 4, gun := basicGun, extraActions := [] }

/-- A fresh character on `tile` with the given health. -/
def testCharacter (tile : Point) (health : ℚ) : Character :=
  { teamIndex := 0
    settings := basicSettings
    index := 0
    hasMoved := false
    hasShot := false
    extraAbilities := []
    isFinishedWithTurn := false
    isAiming := false
    aimAngleRadiansClockwise := 0
    hasFlag := false
    health := health
    tileCoords := tile
    abilityStates := [] }

/-- The spec's example heal ability: free, limited uses. -/
def testHealAbility : CharacterAbility :=
  { details := .heal 20, isFree := true, maxUses := 2, cooldownTurns := 1 }

/-- A non-free grenade ability. -/
def testGrenadeAbility : CharacterAbility :=
  { details := .throwGrenade
      { damage := 10, damageManhattanDistanceRadius := 1,
        tilesAwayDamageReduction := 1/2 } 4
    isFree := false, maxUses := 1, cooldownTurns := 2 }

/-- A character holding one non-free grenade ability, with matching
settings and ability state (fixture for C9). -/
def c9user : Character :=
  { testCharacter ⟨1, 1⟩ 100 with
    settings := { basicSettings with extraActions := [testGrenadeAbility] }
    extraAbilities := [testGrenadeAbility]
    abilityStates :=
      [(.throwGrenade, { usesLeft := some 1, cooldownTurnsLeft := 0 })] }

/-- A not-yet-moved character holding a gun that cannot fire after
moving (fixture for C7). -/
def c7shooter : Character :=
  { testCharacter ⟨1, 1⟩ 100 with
    settings := { basicSettings with gun := noMoveFireGun } }

/-- A character that both moved and shot (fixture for the C7 witness). -/
def c7movedShot : Character :=
  { testCharacter ⟨1, 1⟩ 100 with hasMoved := true, hasShot := true }

/-! ## Claim theorems: character-level claims -/

/-- C1: the spec's splash example is refuted by the code. For a
1-tile-radius splash impact at (5,5) with base damage 10 and falloff
0.5 over live characters at (5,5), (5,6) and (5,7) (100 health each),
the code deals 0 damage at (5,5) — `bfs` never returns the start tile
within depth 1, so the blast area excludes the impact tile — while the
character at (5,6) takes 5 and the one at (5,7) takes 0. The claim
(and spec) predicts healths `[90, 95, 100]`; the code produces
`[100, 95, 100]`. -/
theorem c1_splash_center_undamaged_eval :
    ((updateProjectileSplash
        [testCharacter ⟨5, 5⟩ 100, testCharacter ⟨5, 6⟩ 100,
          testCharacter ⟨5, 7⟩ 100]
        ⟨5, 5⟩
        { damage := 10, damageManhattanDistanceRadius := 1,
          tilesAwayDamageReduction := 1/2 }).map Character.health
      = [100, 95, 100]) ∧
    ((updateProjectileSplash
        [testCharacter ⟨5, 5⟩ 100, testCharacter ⟨5, 6⟩ 100,
          testCharacter ⟨5, 7⟩ 100]
        ⟨5, 5⟩
        { damage := 10, damageManhattanDistanceRadius := 1,
          tilesAwayDamageReduction := 1/2 }).map Character.health
      ≠ [100 - 10, 95, 100]) := by
  have hb : bfs ⟨5, 5⟩ 1 (fun _ => true) (fun _ => true)
      = [⟨5, 4⟩, ⟨5, 6⟩, ⟨4, 5⟩, ⟨6, 5⟩] := by decide
  constructor <;>
    norm_num [updateProjectileSplash, hb, updateFirstAliveAt, testCharacter,
      Character.isAlive, Point.equals, Point.manhattanDistanceTo]

/-- C2: every tile returned by `bfs` is reachable from `startTile` by a
chain of orthogonally adjacent in-bounds tiles of length `d ≤ maxDepth`
whose members (all tiles after `startTile`, the endpoint included)
satisfy `canGoThrough`. -/
theorem c2_bfs_sound (startTile : Point) (maxDepth : Nat)
    (isAvailable canGoThrough : Point → Bool) (t : Point)
    (ht : t ∈ bfs startTile maxDepth isAvailable canGoThrough) :
    ∃ d, d ≤ maxDepth ∧ ReachableVia canGoThrough startTile d t ∧
      canGoThrough t = true := by
  refine bfsAux_sound maxDepth isAvailable canGoThrough startTile _ _ _
    ?_ ?_ t (by simpa [bfs] using ht)
  · intro qt hqt
    simp only [List.mem_map] at hqt
    obtain ⟨tile, htile, rfl⟩ := hqt
    exact ReachableVia.base tile htile
  · intro u hu
    simp at hu

/-- Witness for C2 at a concrete call: `(5,6)` is returned by
`bfs (5,5) 1 ⊤ ⊤` and is indeed reachable within depth 1 through
passable tiles. -/
theorem c2_bfs_sound_witness :
    ∃ d, d ≤ 1 ∧ ReachableVia (fun _ => true) ⟨5, 5⟩ d ⟨5, 6⟩ ∧
      (fun (_ : Point) => true) ⟨5, 6⟩ = true :=
  c2_bfs_sound ⟨5, 5⟩ 1 (fun _ => true) (fun _ => true) ⟨5, 6⟩ (by decide)

/-- C4 counterexample: a live character with 1 health hit by a bullet
of damage 5 ends at health −4 < 0 — the bullet branch of
`updateProjectile` subtracts damage with no lower clamp, so health does
not stay within `[0, maxHealth]`. -/
theorem c4_health_below_zero_counterexample :
    ((updateProjectileBullet none ⟨2, 2⟩ 5 0 [testCharacter ⟨2, 2⟩ 1]).map
        Character.health = [-4]) ∧
    ((-4 : ℚ) < 0) := by
  constructor
  · have h0 : ((none : Option Nat) = some 0) ↔ False := by simp
    norm_num [updateProjectileBullet, updateFirstAliveAt, testCharacter,
      Character.isAlive, Point.equals, h0]
  · norm_num

/-- C4 amended: healing is clamped above by `maxHealth`
(`regenHealth` takes a `min`), but damage is applied as an unclamped
subtraction, so health can drop below 0; a character counts as dead
exactly when `health ≤ 0` (`isAlive ⇔ health > 0`). -/
theorem c4_health_clamping_amended :
    (∀ (c : Character) (amount : ℚ),
      (c.regenHealth amount).health ≤ c.settings.maxHealth) ∧
    (∀ (c : Character) (damage : ℚ), c.isAlive = true →
      (updateProjectileBullet none c.tileCoords damage 0 [c]).map
        Character.health = [c.health - damage]) ∧
    (∀ c : Character, c.isAlive = true ↔ c.health > 0) := by
  refine ⟨?_, ?_, ?_⟩
  · intro c amount
    exact min_le_right _ _
  · intro c damage hc
    have hself : c.tileCoords.equals c.tileCoords = true :=
      (Point.equals_iff _ _).mpr rfl
    simp [updateProjectileBullet, hc, hself]
  · intro c
    simp [Character.isAlive]

/-- Witness for C4 amended at concrete inputs: healing a 90-health
character by 50 stays at the 100 cap, and a 1-health character hit for
5 ends exactly at `1 - 5`. -/
theorem c4_health_clamping_amended_witness :
    ((testCharacter ⟨2, 2⟩ 90).regenHealth 50).health
        ≤ (testCharacter ⟨2, 2⟩ 90).settings.maxHealth ∧
      (updateProjectileBullet none (testCharacter ⟨2, 2⟩ 1).tileCoords 5 0
          [testCharacter ⟨2, 2⟩ 1]).map Character.health
        = [(testCharacter ⟨2, 2⟩ 1).health - 5] :=
  ⟨c4_health_clamping_amended.1 (testCharacter ⟨2, 2⟩ 90) 50,
    c4_health_clamping_amended.2.1 (testCharacter ⟨2, 2⟩ 1) 5
      (by norm_num [Character.isAlive, testCharacter])⟩

/-- C7 counterexample: a character that has NOT moved, whose gun cannot
fire after moving, shoots successfully — and the code immediately marks
its turn over (third branch of `checkAndSetTurnOver`), although both
disjuncts of the claim's "exactly when" condition require `hasMoved`.
The claim predicts the turn stays open (moving was still possible). -/
theorem c7_turn_over_without_moving_counterexample :
    (c7shooter.shoot.2.1 = none) ∧
    (c7shooter.shoot.1.isFinishedWithTurn = true) ∧
    (c7shooter.shoot.1.hasMoved = false) := by
  refine ⟨by decide, by decide, by decide⟩

/-- C7 amended: for a character whose turn is not already over,
`checkAndSetTurnOver` ends the turn exactly when no free ability
remains and (moved ∧ (shot ∨ gun can't fire after moving)) **or**
(shot ∧ gun can't fire after moving) — the last disjunct, absent from
the claim, fires for a character that shot a no-fire-after-move gun
without having moved. -/
theorem c7_auto_turn_over_amended (c : Character)
    (h : c.isFinishedWithTurn = false) :
    (c.checkAndSetTurnOver).isFinishedWithTurn = true ↔
      (c.extraAbilities.any (fun a => a.isFree) = false ∧
        ((c.hasMoved = true ∧
            (c.hasShot = true ∨ c.settings.gun.canFireAfterMoving = false)) ∨
          (c.hasShot = true ∧ c.settings.gun.canFireAfterMoving = false))) := by
  unfold Character.checkAndSetTurnOver Character.setTurnOver
  simp only [h, Bool.false_eq_true, if_false]
  cases hfree : c.extraAbilities.any (fun a => a.isFree) <;>
    cases hm : c.hasMoved <;> cases hs : c.hasShot <;>
      cases hg : c.settings.gun.canFireAfterMoving <;>
        simp [h, hfree, hm, hs, hg]

/-- Witness for C7 amended: a moved-and-shot character with no free
abilities is auto-finished, matching the amended condition. -/
theorem c7_auto_turn_over_amended_witness :
    (c7movedShot.checkAndSetTurnOver).isFinishedWithTurn = true ↔
      (c7movedShot.extraAbilities.any (fun a => a.isFree) = false ∧
        ((c7movedShot.hasMoved = true ∧
            (c7movedShot.hasShot = true ∨
              c7movedShot.settings.gun.canFireAfterMoving = false)) ∨
          (c7movedShot.hasShot = true ∧
            c7movedShot.settings.gun.canFireAfterMoving = false))) :=
  c7_auto_turn_over_amended c7movedShot (by decide)

/-- C8: the spec's "set of reachable tiles" is refuted by the code.
With both predicates constantly true and `maxDepth = 2`, `bfs` from
(5,5) returns the start tile four times: the duplicate check at
enqueue time consults only the already-output list, so (5,5) is
enqueued once per neighbor before its first dequeue, and each copy is
appended to the output on dequeue. -/
theorem c8_bfs_duplicates_eval :
    ((bfs ⟨5, 5⟩ 2 (fun _ => true) (fun _ => true)).count ⟨5, 5⟩ = 4) := by
  decide

/-- C9: after a successful `shoot`, or a successful `useAbility` of a
non-free ability, only free abilities remain and `hasShot` is set;
consequently any ability usable after shooting is free, and after a
non-free ability `shoot` fails. -/
theorem c9_shoot_excludes_nonfree_abilities :
    (∀ (c c' : Character) (e : Option String) (infos : List ShotInfo),
      c.shoot = (c', e, infos) → e = none →
        c'.hasShot = true ∧ ∀ a ∈ c'.extraAbilities, a.isFree = true) ∧
    (∀ (c : Character) (t : CharacterAbilityType) (c' : Character)
        (a : CharacterAbility),
      c.useAbility t = (c', none) →
      c.extraAbilities.find? (fun x => x.abilityType == t) = some a →
      a.isFree = false →
        c'.hasShot = true ∧ ∀ b ∈ c'.extraAbilities, b.isFree = true) ∧
    (∀ (c c' : Character) (infos : List ShotInfo),
      c.shoot = (c', none, infos) →
      ∀ (t : CharacterAbilityType) (a : CharacterAbility),
        c'.extraAbilities.find? (fun x => x.abilityType == t) = some a →
        a.isFree = true) ∧
    (∀ (c : Character) (t : CharacterAbilityType) (c' : Character)
        (a : CharacterAbility),
      c.useAbility t = (c', none) →
      c.extraAbilities.find? (fun x => x.abilityType == t) = some a →
      a.isFree = false →
        (c'.shoot).2.1.isSome = true) := by
  have hshoot : ∀ (c c' : Character) (e : Option String) (infos : List ShotInfo),
      c.shoot = (c', e, infos) → e = none →
        c'.hasShot = true ∧ ∀ a ∈ c'.extraAbilities, a.isFree = true := by
    intro c c' e infos h he
    subst he
    unfold Character.shoot at h
    split at h
    · simp at h
    · simp only [Prod.mk.injEq] at h
      obtain ⟨h1, -, -⟩ := h
      subst h1
      refine ⟨?_, ?_⟩
      · rw [Character.checkAndSetTurnOver_hasShot]
      · intro a ha
        rw [Character.checkAndSetTurnOver_extraAbilities] at ha
        simp only [List.mem_filter] at ha
        exact ha.2
  have huse : ∀ (c : Character) (t : CharacterAbilityType) (c' : Character)
      (a : CharacterAbility),
      c.useAbility t = (c', none) →
      c.extraAbilities.find? (fun x => x.abilityType == t) = some a →
      a.isFree = false →
        c'.hasShot = true ∧ ∀ b ∈ c'.extraAbilities, b.isFree = true := by
    intro c t c' a h hfind hfree
    unfold Character.useAbility at h
    split at h
    · rename_i hn
      rw [hn] at hfind
      cases hfind
    · rename_i action hsome
      rw [hfind] at hsome
      injection hsome with haction
      subst haction
      split at h
      · dsimp only at h
        split at h
        · simp at h
        · split at h
          · simp at h
          · simp only [Prod.mk.injEq] at h
            obtain ⟨h1, -⟩ := h
            subst h1
            refine ⟨?_, ?_⟩
            · rw [Character.checkAndSetTurnOver_hasShot]
            · intro b hb
              rw [Character.checkAndSetTurnOver_extraAbilities] at hb
              simp only [List.mem_filter, Bool.and_eq_true] at hb
              tauto
      · rename_i hnf
        rw [hfree] at hnf
        simp at hnf
  refine ⟨hshoot, huse, ?_, ?_⟩
  · intro c c' infos h t a hfind
    exact (hshoot c c' none infos h rfl).2 a (List.mem_of_find?_eq_some hfind)
  · intro c t c' a h hfind hfree
    have hs := (huse c t c' a h hfind hfree).1
    unfold Character.shoot
    rw [Character.canShoot_eq_false_of_hasShot c' hs]
    simp

/-- Witness for C9: a concrete character with one non-free grenade
ability uses it; afterwards `hasShot` holds, only free abilities remain
and shooting fails. -/
theorem c9_shoot_excludes_nonfree_abilities_witness :
    ((c9user.useAbility .throwGrenade).1.hasShot = true ∧
      ∀ b ∈ (c9user.useAbility .throwGrenade).1.extraAbilities,
        b.isFree = true) ∧
    (((c9user.useAbility .throwGrenade).1.shoot).2.1.isSome = true) :=
  have h2 : (c9user.useAbility .throwGrenade).2 = none := by decide
  have h : c9user.useAbility .throwGrenade
      = ((c9user.useAbility .throwGrenade).1, none) := by
    rw [← h2]
  ⟨c9_shoot_excludes_nonfree_abilities.2.1 c9user .throwGrenade
      (c9user.useAbility .throwGrenade).1 testGrenadeAbility h rfl rfl,
    c9_shoot_excludes_nonfree_abilities.2.2.2 c9user .throwGrenade
      (c9user.useAbility .throwGrenade).1 testGrenadeAbility h rfl rfl⟩

/-- C10: calling `moveTo` on a character that already moved, or whose
turn is over, errors and leaves the character (in particular its tile
position) unchanged. -/
theorem c10_move_once_per_turn (c : Character) (t : Point)
    (h : c.hasMoved = true ∨ c.isFinishedWithTurn = true) :
    (c.moveTo t).1 = c ∧ (c.moveTo t).2.isSome = true := by
  unfold Character.moveTo
  have hcond : (c.isFinishedWithTurn || c.hasMoved) = true := by
    rcases h with h | h <;> simp [h]
  simp [hcond]

/-- Witness for C10: a concrete already-moved character keeps its tile
and gets an error. -/
theorem c10_move_once_per_turn_witness :
    (({ testCharacter ⟨3, 3⟩ 100 with hasMoved := true }).moveTo ⟨4, 3⟩).1
        = { testCharacter ⟨3, 3⟩ 100 with hasMoved := true } ∧
      (({ testCharacter ⟨3, 3⟩ 100 with hasMoved := true }).moveTo ⟨4, 3⟩).2.isSome
        = true :=
  c10_move_once_per_turn { testCharacter ⟨3, 3⟩ 100 with hasMoved := true }
    ⟨4, 3⟩ (Or.inl rfl)

/-! ## Turn/action state machine (`game_manager.ts`, `game_state.ts`)

`game_state.ts` is not under `src/` (only its callers are); the
`GameState` container and its queries are modelled from the spec §3
("GameState: the authoritative snapshot — phase, current team index,
full character list, obstacles, flags, legal tile set for the pending
action, currently selected character and its sub-state"; "marked dead
(filtered out of 'alive' queries) when health reaches zero — they are
never removed from the backing collection") and from every use in
`game_manager.ts` and `ai.ts`. The selected character, an object
reference in the source, is represented by its position in the
`characters` list (identity is stable, spec §3). -/

/-- `GamePhase` from `game_state.ts` (see section comment). -/
inductive GamePhase
  | characterPlacement
  | combat
deriving DecidableEq, Repr

/-- `SelectedCharacterState` from `game_state.ts` (see section
comment; spec §4.3 names the same four sub-states). -/
inductive SelectedCharacterState
  | awaiting
  | moving
  | aiming
  | throwingGrenade
deriving DecidableEq, Repr

/-- `Flag` from `game_objects/flag.ts` (not under `src/`): tile
(mutable — flags can be carried), owning team, and whether it is
currently taken (`setIsTaken`'s animation closure is dropped). -/
structure Flag where
  tileCoords : Point
  teamIndex : Nat
  isTaken : Bool
deriving DecidableEq, Repr

/-- `GameState` (see section comment). -/
structure GameState where
  gamePhase : GamePhase
  currentTeamIndex : Nat
  characters : List Character
  /-- Obstacle tile positions (`Obstacle.tileCoords`). -/
  obstacles : List Point
  flags : List Flag
  selectableTiles : List Point
  /-- Position of `selectedCharacter` in `characters`; `none` = null. -/
  selectedCharacterIndex : Option Nat
  selectedCharacterState : Option SelectedCharacterState
deriving DecidableEq, Repr

namespace GameState

/-- Modelled from the spec: `getAliveCharacters` filters the backing
collection to `health > 0`. -/
def getAliveCharacters (gs : GameState) : List Character :=
  gs.characters.filter (fun c => c.isAlive)

/-- Modelled from the spec: the active squad is the alive members of
the current team. -/
def getActiveSquad (gs : GameState) : List Character :=
  gs.characters.filter (fun c => c.teamIndex == gs.currentTeamIndex && c.isAlive)

/-- Modelled from the spec: the alive members of the other teams. -/
def getEnemyCharacters (gs : GameState) : List Character :=
  gs.characters.filter (fun c => !(c.teamIndex == gs.currentTeamIndex) && c.isAlive)

/-- Modelled from the spec: the current team's flag (first match). -/
def getActiveTeamFlag (gs : GameState) : Option Flag :=
  gs.flags.find? (fun f => f.teamIndex == gs.currentTeamIndex)

/-- Modelled from the spec: the opposing flag (first match). -/
def getEnemyFlag (gs : GameState) : Option Flag :=
  gs.flags.find? (fun f => !(f.teamIndex == gs.currentTeamIndex))

/-- Modelled from the spec: whether a tile holds an obstacle. -/
def tileHasObstacle (gs : GameState) (tile : Point) : Bool :=
  gs.obstacles.any (fun o => o.equals tile)

/-- Modelled from the spec: whether an (alive) active-squad member
stands on the tile. -/
def isSquadMemberAtTile (gs : GameState) (tile : Point) : Bool :=
  (gs.getActiveSquad).any (fun c => c.tileCoords.equals tile)

/-- Modelled from the spec ("own flag if the enemy is already carrying
it"): the active team's flag has been taken. -/
def enemyHasFlag (gs : GameState) : Bool :=
  match gs.getActiveTeamFlag with
  | some f => f.isTaken
  | none => false

/-- Modelled from the spec: the `.index` of the first active-squad
member (`getFirstCharacterIndex`). -/
def getFirstCharacterIndex (gs : GameState) : Option Nat :=
  (gs.getActiveSquad).head?.map (fun c => c.index)

/-- The dereferenced `gameState.selectedCharacter`. -/
def getSelectedCharacter (gs : GameState) : Option Character :=
  gs.selectedCharacterIndex.bind (fun i => gs.characters.get? i)

/-- Overwrite the character at position `i` (mutation through the
selected-character reference). -/
def setCharacterAt (gs : GameState) (i : Nat) (c : Character) : GameState :=
  { gs with characters := gs.characters.set i c }

/-- Mutate the first flag satisfying `p` (mutation through the
reference returned by a flag query). -/
def updateFirstFlag (gs : GameState) (p : Flag → Bool) (f : Flag → Flag) :
    GameState :=
  { gs with flags :=
      match gs.flags.findIdx? p with
      | some i =>
        match gs.flags.get? i with
        | some fl => gs.flags.set i (f fl)
        | none => gs.flags
      | none => gs.flags }

end GameState

/-- The fields of `GameManager` that carry game (not presentation)
state, plus the configuration the handlers read (`GameSettings` from
`game_settings.ts`). Canvas, HUD, control map, click handlers,
particle systems and the projectile list are presentation/animation
and are omitted; `fireShot` and `throwGrenade` only append to the
projectile list (and read state), so they are no-ops here. -/
structure GameManager where
  gameState : GameState
  teamIndexToSquadSize : List (Nat × Nat)
  maxSpawnDistanceFromFlag : Nat
  numTeams : Nat
  selectedCharacterSettings : CharacterSettings
  isGameOver : Bool
  winningTeamIndex : Int
deriving DecidableEq, Repr

namespace GameManager

/-- `GameManager.isTileOccupied`: obstacle or (alive) character on the
tile; flags do not occupy. -/
def isTileOccupied (gm : GameManager) (tileCoords : Point) : Bool :=
  (gm.gameState.obstacles.any (fun o => o.equals tileCoords)) ||
    ((gm.gameState.getAliveCharacters).any
      (fun c => c.isAlive && c.tileCoords.equals tileCoords))

/-- `GameManager.getAvailableTilesForCharacterPlacement`: `bfs` from
the active team's flag; stop on unoccupied non-flag tiles, pass
through anything but obstacles. -/
def getAvailableTilesForCharacterPlacement (gm : GameManager) :
    Except String (List Point) :=
  match gm.gameState.getActiveTeamFlag with
  | none => .error "TypeError: no active team flag"
  | some flag =>
    .ok (bfs flag.tileCoords gm.maxSpawnDistanceFromFlag
      (fun tile => !(gm.isTileOccupied tile) && !(tile.equals flag.tileCoords))
      (fun tile => !(gm.gameState.tileHasObstacle tile)))

/-- `GameManager.getAvailableTilesForCharacterMovement`: `bfs` from the
selected character, depth `maxMovesPerTurn`; a tile is a stopping point
when unoccupied and not the own flag (unless the mover carries the
enemy flag), and passable additionally through squad members. -/
def getAvailableTilesForCharacterMovement (gm : GameManager) :
    Except String (List Point) :=
  match gm.gameState.getSelectedCharacter with
  | none => .error "No character selected in getAvailableTilesForCharacterMovement"
  | some selectedCharacter =>
    match gm.gameState.getActiveTeamFlag, gm.gameState.getEnemyFlag with
    | some ownFlag, some enemyFlag =>
      let isAvailable : Point → Bool := fun tile =>
        !(gm.isTileOccupied tile) &&
          (!(tile.equals ownFlag.tileCoords) ||
            selectedCharacter.tileCoords.equals enemyFlag.tileCoords)
      let canGoThrough : Point → Bool := fun tile =>
        isAvailable tile || gm.gameState.isSquadMemberAtTile tile
      .ok (bfs selectedCharacter.tileCoords
        selectedCharacter.settings.maxMovesPerTurn isAvailable canGoThrough)
    | _, _ => .error "TypeError: flag missing"

/-- `GameManager.getAvailableTilesForThrowingGrenade`: `bfs` from the
selected character out to the grenade's range; obstacles, the thrower's
own tile and squad members are not valid targets, but grenades fly over
every in-bounds tile. -/
def getAvailableTilesForThrowingGrenade (gm : GameManager) :
    Except String (List Point) :=
  match gm.gameState.getSelectedCharacter with
  | none => .error "No character selected in getAvailableTilesForCharacterMovement"
  | some selectedCharacter =>
    match selectedCharacter.getGrenadeAbility with
    | none => .error "TypeError: character has no grenade ability"
    | some grenadeAbility =>
      let maxDist := match grenadeAbility.details with
        | .throwGrenade _ maxManhattanDistance => maxManhattanDistance
        | .heal _ => 0
      let currentCoords := selectedCharacter.tileCoords
      let isAvailable : Point → Bool := fun tile =>
        !(gm.gameState.tileHasObstacle tile) &&
          !(tile.equals currentCoords) &&
          !(gm.gameState.isSquadMemberAtTile tile)
      let canGoThrough : Point → Bool := fun tile => Grid.inbounds tile
      .ok (bfs currentCoords maxDist isAvailable canGoThrough)

/-- `GameManager.setSelectedCharacterState` (`game_manager.ts` lines
697–899), with the control-map/click-handler wiring dropped: requires a
selected character, records the new sub-state, then per state resets
`selectableTiles` / stops aiming (AWAITING), computes the legal tile
set (MOVING, THROWING_GRENADE) or calls `startAiming` (AIMING).
Note the sub-state mutation happens before the state-specific part, so
a failure there leaves it changed. -/
def setSelectedCharacterState (gm : GameManager)
    (state : SelectedCharacterState) : GameManager × Option String :=
  match gm.gameState.selectedCharacterIndex with
  | none =>
    (gm, some "There needs to be a selected character before calling setSelectedCharacterState")
  | some i =>
    match gm.gameState.characters.get? i with
    | none =>
      (gm, some "There needs to be a selected character before calling setSelectedCharacterState")
    | some selectedCharacter =>
      let gm1 := { gm with gameState :=
        { gm.gameState with selectedCharacterState := some state } }
      match state with
      | .awaiting =>
        let gs2 := { gm1.gameState with selectableTiles := [] }
        ({ gm1 with gameState :=
            gs2.setCharacterAt i selectedCharacter.cancelAiming }, none)
      | .moving =>
        match getAvailableTilesForCharacterMovement gm1 with
        | .error e => (gm1, some e)
        | .ok tiles =>
          ({ gm1 with gameState :=
              { gm1.gameState with selectableTiles := tiles } }, none)
      | .aiming =>
        match selectedCharacter.startAiming with
        | (_, some e) => (gm1, some e)
        | (c', none) =>
          ({ gm1 with gameState := gm1.gameState.setCharacterAt i c' }, none)
      | .throwingGrenade =>
        match getAvailableTilesForThrowingGrenade gm1 with
        | .error e => (gm1, some e)
        | .ok tiles =>
          ({ gm1 with gameState :=
              { gm1.gameState with selectableTiles := tiles } }, none)

/-- `GameManager.setSelectedCharacter`: find the active-squad member
with the given `.index` (a missing member is the source's `!`-lookup
`TypeError`); a finished character only produces a HUD toast and no
mutation; otherwise select it and enter AWAITING. -/
def setSelectedCharacter (gm : GameManager) (index : Nat) :
    GameManager × Option String :=
  match gm.gameState.characters.findIdx? (fun c =>
      c.teamIndex == gm.gameState.currentTeamIndex && c.isAlive &&
        c.index == index) with
  | none => (gm, some "TypeError: no active-squad character with index")
  | some pos =>
    match gm.gameState.characters.get? pos with
    | none => (gm, some "TypeError: no active-squad character with index")
    | some character =>
      if character.isTurnOver then (gm, none)
      else
        setSelectedCharacterState
          { gm with gameState :=
              { gm.gameState with selectedCharacterIndex := some pos } }
          .awaiting

/-- `GameManager.initCharacterPlacementTurn` (HUD text dropped). -/
def initCharacterPlacementTurn (gm : GameManager) : GameManager × Option String :=
  match getAvailableTilesForCharacterPlacement gm with
  | .error e => (gm, some e)
  | .ok tiles =>
    ({ gm with gameState := { gm.gameState with selectableTiles := tiles } },
      none)

/-- The loop of `advanceToNextCombatTurn` that calls `resetTurnState`
on every active-squad member in place; a throw mid-loop leaves the
earlier members reset. -/
def resetSquadLoop (team : Nat) : List Character →
    List Character × Option String
  | [] => ([], none)
  | c :: rest =>
    if c.teamIndex == team && c.isAlive then
      match c.resetTurnState with
      | (c', none) =>
        match resetSquadLoop team rest with
        | (rest', e) => (c' :: rest', e)
      | (c', some e) => (c' :: rest, some e)
    else
      match resetSquadLoop team rest with
      | (rest', e) => (c :: rest', e)

/-- `GameManager.advanceToNextCombatTurn`: cycle the team index,
reset every squad member's turn state, and select the first squad
member (HUD text dropped). -/
def advanceToNextCombatTurn (gm : GameManager) : GameManager × Option String :=
  let newTeam := (gm.gameState.currentTeamIndex + 1) % gm.numTeams
  let gm1 := { gm with gameState :=
    { gm.gameState with currentTeamIndex := newTeam } }
  match resetSquadLoop newTeam gm1.gameState.characters with
  | (chars, some e) =>
    ({ gm1 with gameState := { gm1.gameState with characters := chars } },
      some e)
  | (chars, none) =>
    let gm2 := { gm1 with gameState :=
      { gm1.gameState with characters := chars } }
    match gm2.gameState.getFirstCharacterIndex with
    | none => (gm2, some "TypeError: no first character")
    | some firstIndex => setSelectedCharacter gm2 firstIndex

/-- `GameManager.nextTurn`. -/
def nextTurn (gm : GameManager) : GameManager × Option String :=
  match gm.gameState.gamePhase with
  | .characterPlacement =>
    if gm.gameState.currentTeamIndex + 1 < gm.numTeams then
      initCharacterPlacementTurn
        { gm with gameState :=
            { gm.gameState with
                currentTeamIndex := gm.gameState.currentTeamIndex + 1 } }
    else
      advanceToNextCombatTurn
        { gm with gameState := { gm.gameState with gamePhase := .combat } }
  | .combat => advanceToNextCombatTurn gm

/-- `GameManager.onCharacterTurnOver`: hand the turn to another
not-finished alive squad member, or advance the turn. -/
def onCharacterTurnOver (gm : GameManager) : GameManager × Option String :=
  match (gm.gameState.getActiveSquad).find?
      (fun character => !character.isTurnOver && character.isAlive) with
  | some activeSquadMember => setSelectedCharacter gm activeSquadMember.index
  | none => nextTurn gm

/-- `GameManager.checkCharacterTurnOver`. -/
def checkCharacterTurnOver (gm : GameManager) : GameManager × Option String :=
  match gm.gameState.getSelectedCharacter with
  | none => (gm, some "TypeError: selected character is null")
  | some selectedCharacter =>
    if selectedCharacter.isTurnOver then onCharacterTurnOver gm
    else setSelectedCharacterState gm .awaiting

/-- `GameManager.setGameOver` (HUD/controls dropped). -/
def setGameOver (gm : GameManager) (winningTeamIndex : Int) : GameManager :=
  { gm with isGameOver := true, winningTeamIndex := winningTeamIndex }

/-- `GameManager.handleCharacterMovement` (`game_manager.ts` lines
465–493): reject a destination farther than `maxMovesPerTurn` in
Manhattan distance, otherwise `moveTo` the selected character (the
animation path from `getPath` is presentation-only and dropped) and
carry/capture the enemy flag when the mover stood on it. -/
def handleCharacterMovement (gm : GameManager) (toTile : Point) :
    GameManager × Option String :=
  match gm.gameState.selectedCharacterIndex with
  | none => (gm, some "TypeError: selected character is null")
  | some i =>
    match gm.gameState.characters.get? i with
    | none => (gm, some "TypeError: selected character is null")
    | some character =>
      if character.tileCoords.manhattanDistanceTo toTile
          > character.settings.maxMovesPerTurn then
        (gm, some "Invalid character movement location (too far)")
      else
        match gm.gameState.getEnemyFlag with
        | none => (gm, some "TypeError: no enemy flag")
        | some enemyFlag =>
          let characterHasFlag :=
            character.tileCoords.equals enemyFlag.tileCoords
          match character.moveTo toTile with
          | (_, some e) =>
            -- `moveTo` throws before mutating, so nothing is written back.
            (gm, some e)
          | (c', none) =>
            let gm1 := { gm with gameState := gm.gameState.setCharacterAt i c' }
            if characterHasFlag then
              let gs2 := gm1.gameState.updateFirstFlag
                (fun f => !(f.teamIndex == gm1.gameState.currentTeamIndex))
                (fun f => { f with isTaken := true, tileCoords := toTile })
              let gm2 := { gm1 with gameState := gs2 }
              match gm2.gameState.getActiveTeamFlag with
              | none => (gm2, some "TypeError: no active team flag")
              | some ownFlag =>
                if toTile.equals ownFlag.tileCoords then
                  (gm2.setGameOver gm2.gameState.currentTeamIndex, none)
                else (gm2, none)
            else (gm1, none)

end GameManager

/-- The closed `Action` variant set from `actions.ts` (not under
`src/`; modelled from the spec §4.3 action list and every dispatch in
`game_manager.ts` — the place-character action is a `SELECT_TILE`
during the placement phase). -/
inductive Action
  | shoot
  | heal (healAmount : ℚ)
  | endCharacterTurn
  | aim (aimAngleClockwiseRadians : ℚ)
  | selectTile (tile : Point)
  | selectCharacter (characterIndex : Nat)
  | selectCharacterState (state : SelectedCharacterState)
deriving DecidableEq, Repr

namespace GameManager

/-- `GameManager.onAction` (`game_manager.ts` lines 246–351), the
state-machine entry point. Error branches where the source throws
before mutating return the state untouched; branches that mutate
before a deeper failure return the mutated state with the error.
`fireShot`/`throwGrenade` only construct projectiles (outside
`GameState`) and are no-ops here; HUD/particles are dropped. -/
def onAction (gm : GameManager) (action : Action) : GameManager × Option String :=
  match action with
  | .shoot =>
    match gm.gameState.selectedCharacterIndex with
    | none => (gm, some "Selected character is null on FIRE action")
    | some i =>
      match gm.gameState.characters.get? i with
      | none => (gm, some "Selected character is null on FIRE action")
      | some selectedCharacter =>
        match selectedCharacter.shoot with
        | (_, some e, _) => (gm, some e)
        | (c', none, shotInfos) =>
          let gm1 := { gm with gameState := gm.gameState.setCharacterAt i c' }
          shotInfos.foldl
            (fun acc _ =>
              match acc with
              | (g, some e) => (g, some e)
              | (g, none) => setSelectedCharacterState g .awaiting)
            (gm1, none)
  | .heal healAmount =>
    match gm.gameState.selectedCharacterIndex with
    | none => (gm, some "Selected character is null on HEAL action")
    | some i =>
      match gm.gameState.characters.get? i with
      | none => (gm, some "Selected character is null on HEAL action")
      | some selectedCharacter =>
        let c1 := selectedCharacter.regenHealth healAmount
        match c1.useAbility .heal with
        | (c2, some e) =>
          ({ gm with gameState := gm.gameState.setCharacterAt i c2 }, some e)
        | (c2, none) =>
          checkCharacterTurnOver
            { gm with gameState := gm.gameState.setCharacterAt i c2 }
  | .endCharacterTurn =>
    match gm.gameState.selectedCharacterIndex with
    | none => (gm, some "Selected character is null on END_CHARACTER_TURN action")
    | some i =>
      match gm.gameState.characters.get? i with
      | none => (gm, some "Selected character is null on END_CHARACTER_TURN action")
      | some selectedCharacter =>
        onCharacterTurnOver
          { gm with gameState :=
              gm.gameState.setCharacterAt i selectedCharacter.setTurnOver }
  | .aim aimAngleClockwiseRadians =>
    match gm.gameState.selectedCharacterIndex with
    | none => (gm, some "Selected character is null on AIM action")
    | some i =>
      match gm.gameState.characters.get? i with
      | none => (gm, some "Selected character is null on AIM action")
      | some selectedCharacter =>
        let c1 := selectedCharacter.setAim aimAngleClockwiseRadians
        ({ gm with gameState := gm.gameState.setCharacterAt i c1 }, none)
  | .selectTile tile =>
    if !(gm.gameState.selectableTiles.any (fun t => t.equals tile)) then
      (gm, some "Invalid tile selection")
    else
      match gm.gameState.gamePhase with
      | .combat =>
        match gm.gameState.selectedCharacterIndex with
        | none => (gm, some "Selected character is null on SELECT_TILE action in combat phase")
        | some i =>
          match gm.gameState.characters.get? i with
          | none => (gm, some "Selected character is null on SELECT_TILE action in combat phase")
          | some selectedCharacter =>
            let gm1 := { gm with gameState :=
              { gm.gameState with selectableTiles := [] } }
            if gm1.gameState.selectedCharacterState == some .moving then
              match handleCharacterMovement gm1 tile with
              | (gm2, some e) => (gm2, some e)
              | (gm2, none) => checkCharacterTurnOver gm2
            else if gm1.gameState.selectedCharacterState
                == some .throwingGrenade then
              match selectedCharacter.getGrenadeAbility with
              | none => (gm1, some "TypeError: grenade ability missing")
              | some _ =>
                match selectedCharacter.useAbility .throwGrenade with
                | (c2, some e) =>
                  ({ gm1 with gameState :=
                      gm1.gameState.setCharacterAt i c2 }, some e)
                | (c2, none) =>
                  ({ gm1 with gameState :=
                      gm1.gameState.setCharacterAt i c2 }, none)
            else (gm1, none)
      | .characterPlacement =>
        let squadIndex := (gm.gameState.getActiveSquad).length
        match Character.mkCharacter tile gm.gameState.currentTeamIndex
            squadIndex gm.selectedCharacterSettings with
        | (_, some e) => (gm, some e)
        | (newCharacter, none) =>
          let gm1 := { gm with gameState :=
            { gm.gameState with
                characters := gm.gameState.characters ++ [newCharacter] } }
          let newTiles := gm1.gameState.selectableTiles.filter
            (fun t => !(t.equals tile))
          let filtered := { gm1 with gameState :=
            { gm1.gameState with selectableTiles := newTiles } }
          match gm.teamIndexToSquadSize.find?
              (fun p => p.1 == gm.gameState.currentTeamIndex) with
          | some p =>
            if squadIndex + 1 == p.2 then nextTurn gm1
            else (filtered, none)
          | none => (filtered, none)
  | .selectCharacter characterIndex =>
    match (gm.gameState.getActiveSquad).get? characterIndex with
    | none => (gm, some "TypeError: undefined squad member")
    | some character =>
      if character.isTurnOver || !character.isAlive then
        (gm, some "Selected character is dead or turn is over.")
      else setSelectedCharacter gm characterIndex
  | .selectCharacterState state => setSelectedCharacterState gm state

end GameManager

theorem get?_set_of_get? {α : Type _} (l : List α) (i : Nat) (a b : α)
    (h : l.get? i = some b) : (l.set i a).get? i = some a := by
  induction l generalizing i with
  | nil => simp at h
  | cons x xs ih =>
    cases i with
    | zero => simp [List.set]
    | succ n => simpa [List.set] using ih n h

theorem getElem?_set_of_get? {α : Type _} (l : List α) (i : Nat) (a b : α)
    (h : l.get? i = some b) : (l.set i a)[i]? = some a := by
  have := get?_set_of_get? l i a b h
  rwa [List.get?_eq_getElem?] at this

/-! ## Claim theorems: state machine (C3, C5) -/

/-- Fixture for C3: combat phase, one selected fresh character (4 moves
per turn) at (0,0), both flags present and far away. -/
def c3gm : GameManager :=
  { gameState :=
      { gamePhase := .combat
        currentTeamIndex := 0
        characters := [testCharacter ⟨0, 0⟩ 100]
        obstacles := []
        flags := [⟨⟨0, 14⟩, 0, false⟩, ⟨⟨10, 10⟩, 1, false⟩]
        selectableTiles := []
        selectedCharacterIndex := some 0
        selectedCharacterState := some .moving }
    teamIndexToSquadSize := [(0, 1), (1, 1)]
    maxSpawnDistanceFromFlag := 3
    numTeams := 2
    selectedCharacterSettings := basicSettings
    isGameOver := false
    winningTeamIndex := -1 }

/-- C3: with a selected character of `maxMovesPerTurn = 4` that can
still move, `handleCharacterMovement` rejects a destination at
Manhattan distance 5 leaving the state unchanged, and accepts one at
distance 4, moving the character there and setting `hasMoved`. -/
theorem c3_movement_budget (gm : GameManager) (i : Nat) (c : Character)
    (ef : Flag) (t5 t4 : Point)
    (hsel : gm.gameState.selectedCharacterIndex = some i)
    (hget : gm.gameState.characters.get? i = some c)
    (hmax : c.settings.maxMovesPerTurn = 4)
    (hmoved : c.hasMoved = false) (hfin : c.isFinishedWithTurn = false)
    (hflag : gm.gameState.getEnemyFlag = some ef)
    (hcarrier : c.tileCoords.equals ef.tileCoords = false)
    (h5 : c.tileCoords.manhattanDistanceTo t5 = 5)
    (h4 : c.tileCoords.manhattanDistanceTo t4 = 4) :
    ((GameManager.handleCharacterMovement gm t5).1 = gm ∧
      (GameManager.handleCharacterMovement gm t5).2.isSome = true) ∧
    ((GameManager.handleCharacterMovement gm t4).2 = none ∧
      ((GameManager.handleCharacterMovement gm t4).1.gameState.characters.get?
          i).map (fun c' => (c'.tileCoords, c'.hasMoved))
        = some (t4, true)) := by
  have hget' : gm.gameState.characters[i]? = some c := by
    rw [← List.get?_eq_getElem?]
    exact hget
  have hmove : c.moveTo t4
      = (Character.checkAndSetTurnOver
          { c with tileCoords := t4, hasMoved := true }, none) := by
    unfold Character.moveTo
    simp [hfin, hmoved]
  refine ⟨⟨?_, ?_⟩, ?_, ?_⟩
  · simp [GameManager.handleCharacterMovement, hsel, hget', h5, hmax]
  · simp [GameManager.handleCharacterMovement, hsel, hget', h5, hmax]
  · simp [GameManager.handleCharacterMovement, hsel, hget', h4, hmax, hflag,
      hcarrier, hmove]
  · simp [GameManager.handleCharacterMovement, hsel, hget', h4, hmax, hflag,
      hcarrier, hmove, GameState.setCharacterAt,
      getElem?_set_of_get? _ _ _ _ hget,
      Character.checkAndSetTurnOver_tileCoords,
      Character.checkAndSetTurnOver_hasMoved]

/-- Witness for C3 at the concrete fixture: (5,0) (distance 5) is
rejected without mutation; (4,0) (distance 4) succeeds, moves the
character and sets `hasMoved`. -/
theorem c3_movement_budget_witness :
    ((GameManager.handleCharacterMovement c3gm ⟨5, 0⟩).1 = c3gm ∧
      (GameManager.handleCharacterMovement c3gm ⟨5, 0⟩).2.isSome = true) ∧
    ((GameManager.handleCharacterMovement c3gm ⟨4, 0⟩).2 = none ∧
      ((GameManager.handleCharacterMovement c3gm
          ⟨4, 0⟩).1.gameState.characters.get? 0).map
          (fun c' => (c'.tileCoords, c'.hasMoved))
        = some (⟨4, 0⟩, true)) :=
  c3_movement_budget c3gm 0 (testCharacter ⟨0, 0⟩ 100) ⟨⟨10, 10⟩, 1, false⟩
    ⟨5, 0⟩ ⟨4, 0⟩ rfl rfl rfl rfl rfl (by decide) (by decide) (by decide)
    (by decide)

/-- Fixture for C5: combat phase, selected character with 5 health (cap
100) and **no** extra abilities. -/
def c5gm : GameManager :=
  { gameState :=
      { gamePhase := .combat
        currentTeamIndex := 0
        characters := [testCharacter ⟨1, 1⟩ 5]
        obstacles := []
        flags := [⟨⟨0, 14⟩, 0, false⟩, ⟨⟨10, 10⟩, 1, false⟩]
        selectableTiles := []
        selectedCharacterIndex := some 0
        selectedCharacterState := some .awaiting }
    teamIndexToSquadSize := [(0, 1), (1, 1)]
    maxSpawnDistanceFromFlag := 3
    numTeams := 2
    selectedCharacterSettings := basicSettings
    isGameOver := false
    winningTeamIndex := -1 }

/-- The C5 fixture with no selected character. -/
def c5gmNoSel : GameManager :=
  { c5gm with gameState :=
      { c5gm.gameState with selectedCharacterIndex := none } }

/-- C5 counterexample: a HEAL action for a character lacking the heal
ability is rejected (`useAbility` throws) — but `regenHealth` has
already run, so the selected character's health changed from 5 to 8
before the rejection: the failing action does **not** leave the
`GameState` unchanged. -/
theorem c5_heal_mutates_before_reject :
    ((GameManager.onAction c5gm (.heal 3)).2.isSome = true) ∧
    (((GameManager.onAction c5gm (.heal 3)).1.gameState.characters.get? 0).map
      Character.health = some 8) ∧
    ((c5gm.gameState.characters.get? 0).map Character.health = some 5) ∧
    ((8 : ℚ) ≠ 5) := by
  refine ⟨?_, ?_, by norm_num [c5gm, testCharacter], by norm_num⟩ <;>
    norm_num [GameManager.onAction, c5gm, testCharacter, basicSettings,
      Character.regenHealth, Character.useAbility, GameState.setCharacterAt,
      min_def]

/-- C5 amended: actions rejected by the validation at the top of their
handler (missing selected character; tile outside the legal set; dead
or finished squad member; shooting when not allowed) leave the state
unchanged — but errors raised deeper inside a handler can occur after
partial mutation (e.g. HEAL heals before the ability lookup fails, and
a combat SELECT_TILE clears `selectableTiles` before its sub-handler
fails), so the claim's universal no-mutation guarantee does not hold. -/
theorem c5_validation_rejections_leave_state_unchanged :
    (∀ (gm : GameManager) (a : Action),
      gm.gameState.getSelectedCharacter = none →
      (a = .shoot ∨ (∃ q, a = .heal q) ∨ a = .endCharacterTurn ∨
        (∃ q, a = .aim q) ∨ (∃ s, a = .selectCharacterState s)) →
      (GameManager.onAction gm a).1 = gm ∧
        (GameManager.onAction gm a).2.isSome = true) ∧
    (∀ (gm : GameManager) (tile : Point),
      gm.gameState.selectableTiles.any (fun t => t.equals tile) = false →
      (GameManager.onAction gm (.selectTile tile)).1 = gm ∧
        (GameManager.onAction gm (.selectTile tile)).2.isSome = true) ∧
    (∀ (gm : GameManager) (idx : Nat) (ch : Character),
      (gm.gameState.getActiveSquad).get? idx = some ch →
      (ch.isTurnOver || !ch.isAlive) = true →
      (GameManager.onAction gm (.selectCharacter idx)).1 = gm ∧
        (GameManager.onAction gm (.selectCharacter idx)).2.isSome = true) ∧
    (∀ (gm : GameManager) (i : Nat) (c : Character),
      gm.gameState.selectedCharacterIndex = some i →
      gm.gameState.characters.get? i = some c →
      c.canShoot = false →
      (GameManager.onAction gm .shoot).1 = gm ∧
        (GameManager.onAction gm .shoot).2.isSome = true) := by
  refine ⟨?_, ?_, ?_, ?_⟩
  · intro gm a hnull ha
    cases hidx : gm.gameState.selectedCharacterIndex with
    | none =>
      rcases ha with rfl | ⟨q, rfl⟩ | rfl | ⟨q, rfl⟩ | ⟨s, rfl⟩ <;>
        simp [GameManager.onAction, GameManager.setSelectedCharacterState, hidx]
    | some i =>
      have hgetn : gm.gameState.characters[i]? = none := by
        rw [← List.get?_eq_getElem?]
        simpa [GameState.getSelectedCharacter, hidx] using hnull
      rcases ha with rfl | ⟨q, rfl⟩ | rfl | ⟨q, rfl⟩ | ⟨s, rfl⟩ <;>
        simp [GameManager.onAction, GameManager.setSelectedCharacterState,
          hidx, hgetn]
  · intro gm tile hmem
    simp [GameManager.onAction, hmem]
  · intro gm idx ch hget hbad
    have hget' : (gm.gameState.getActiveSquad)[idx]? = some ch := by
      rw [← List.get?_eq_getElem?]
      exact hget
    simp [GameManager.onAction, hget', hbad]
  · intro gm i c hsel hget hcs
    have hget' : gm.gameState.characters[i]? = some c := by
      rw [← List.get?_eq_getElem?]
      exact hget
    have hshoot : c.shoot = (c, some "Already shot or used non-free action.", []) := by
      unfold Character.shoot
      simp [hcs]
    simp [GameManager.onAction, hsel, hget', hshoot]

/-- Witness for C5 amended at concrete inputs: with no selected
character a SHOOT is rejected unchanged; a SELECT_TILE outside the
legal set is rejected unchanged. -/
theorem c5_validation_rejections_witness :
    ((GameManager.onAction c5gmNoSel .shoot).1 = c5gmNoSel ∧
      (GameManager.onAction c5gmNoSel .shoot).2.isSome = true) ∧
    ((GameManager.onAction c5gm (.selectTile ⟨7, 7⟩)).1 = c5gm ∧
      (GameManager.onAction c5gm (.selectTile ⟨7, 7⟩)).2.isSome = true) :=
  ⟨c5_validation_rejections_leave_state_unchanged.1 c5gmNoSel .shoot rfl
      (Or.inl rfl),
    c5_validation_rejections_leave_state_unchanged.2.1 c5gm ⟨7, 7⟩ (by decide)⟩

/-! ## AI planner (`ai.ts`)

`target_finder.ts` and the geometric parts of `math/point.ts` are not
under `src/`. They enter the planner only through three calls, which
are therefore modelled from the spec as an explicit environment
(`TargetFinderEnv`): the ray-tracing oracle `getProjectileTarget`
(spec §4.1), the `getPath` tile path used for distances (spec §4.2),
and `getPointRotationRadians`, the angle of a direction vector. The
source computes `direction.normalize()` and converts it to a clockwise
angle with `getPointRotationRadians`, then `getRayForShot2`
reconstructs the ray from that angle; the embedding keeps the exact
integer direction vector in the ray (the composition is the identity
on directions) and uses the abstract angle only as the `AIM` action
payload, avoiding floating point. -/

/-- `Point.subtract`. -/
def Point.subtract (a b : Point) : Point := ⟨a.x - b.x, a.y - b.y⟩

/-- The `Target` of `math/target.ts` as consumed by the AI's hit test:
only the resolved tile is read (`target.tile.equals(enemy.tileCoords)`). -/
structure TargetE where
  tile : Point
deriving DecidableEq, Repr

/-- A ray as origin plus (un-normalized) integer direction vector (see
section comment). -/
structure RayE where
  origin : Point
  direction : Point
deriving DecidableEq, Repr

/-- The targeting/path environment (see section comment). -/
structure TargetFinderEnv where
  getPointRotationRadians : Point → ℚ
  getProjectileTarget : List Character → List Point → Nat → RayE → Point → TargetE
  getPath : Point → Point → List Point

/-- `ShotDetails` from `ai.ts`. -/
structure ShotDetails where
  aimAngleClockwiseRadians : ℚ
  target : TargetE
deriving DecidableEq, Repr

/-- The closures an `ActionSequenceItem` of `ai.ts` can be
(defunctionalized); `runAiItem` is their meaning. -/
inductive AiItem
  | placeCharacterItem
  | startMoving
  | thenMoveHasntMovedNorShot
  | thenMoveSafe (tileLocation : Point)
  | startAiming
  | thenAim (aimAngleClockwiseRadians : ℚ)
  | thenShoot
  | endTurn

namespace Ai

/-- The loop of `Ai.getEnemyTargetsInDirectSight` (`ai.ts` lines
339–361): for each enemy in list order, aim at its tile center and keep
the shot when the traced projectile lands on the enemy's tile. -/
def enemySightLoop (tf : TargetFinderEnv) (team : Nat)
    (fromCanvas fromTile : Point) (aliveCharacters : List Character)
    (obstacles : List Point) : List Character → List ShotDetails
  | [] => []
  | enemy :: rest =>
    let direction := (Grid.tileCenterCanvas enemy.tileCoords).subtract fromCanvas
    let aimAngleClockwiseRadians := tf.getPointRotationRadians direction
    let target := tf.getProjectileTarget aliveCharacters obstacles team
      ⟨fromCanvas, direction⟩ fromTile
    if target.tile.equals enemy.tileCoords then
      ⟨aimAngleClockwiseRadians, target⟩ ::
        enemySightLoop tf team fromCanvas fromTile aliveCharacters obstacles rest
    else enemySightLoop tf team fromCanvas fromTile aliveCharacters obstacles rest

/-- `Ai.getEnemyTargetsInDirectSight`. -/
def getEnemyTargetsInDirectSight (tf : TargetFinderEnv) (team : Nat)
    (fromCanvas : Point) (gs : GameState) : List ShotDetails :=
  enemySightLoop tf team fromCanvas (Grid.getTileFromCanvasCoords fromCanvas)
    gs.getAliveCharacters gs.obstacles gs.getEnemyCharacters

/-- `Ai.getShootSequence`: start aiming, aim, shoot. -/
def getShootSequence (sd : ShotDetails) : List AiItem :=
  [.startAiming, .thenAim sd.aimAngleClockwiseRadians, .thenShoot]

/-- `Ai.getSafeMoveTowardsLocation`. -/
def getSafeMoveTowardsLocation (tileLocation : Point) : List AiItem :=
  [.startMoving, .thenMoveSafe tileLocation]

/-- `Ai.getActionsForFlagCarrrier`: retreat toward the own flag. -/
def getActionsForFlagCarrrier (gs : GameState) : Except String (List AiItem) :=
  match gs.getActiveTeamFlag with
  | none => .error "TypeError: no active team flag"
  | some teamFlag => .ok (getSafeMoveTowardsLocation teamFlag.tileCoords)

/-- `Ai.getHasntMovedNorShot`: shoot the first available target and
then move safely toward the objective flag; with no shot available,
move (the destination closure is deferred to `runAiItem`). -/
def getHasntMovedNorShot (tf : TargetFinderEnv) (team : Nat)
    (character : Character) (gs : GameState) : Except String (List AiItem) :=
  let potentialShots := getEnemyTargetsInDirectSight tf team
    (Grid.tileCenterCanvas character.tileCoords) gs
  match potentialShots with
  | sd :: _ =>
    match gs.getActiveTeamFlag, gs.getEnemyFlag with
    | some activeFlag, some enemyFlag =>
      let targetTile := if gs.enemyHasFlag then activeFlag.tileCoords
        else enemyFlag.tileCoords
      .ok (getShootSequence sd ++ getSafeMoveTowardsLocation targetTile)
    | _, _ => .error "TypeError: flag missing"
  | [] => .ok [.startMoving, .thenMoveHasntMovedNorShot]

/-- `Ai.getActionsForGameState` (`ai.ts` lines 166–199): place during
placement; a not-yet-moved flag carrier retreats; a character that has
neither moved nor shot shoots-and-moves or moves; a character that has
not shot fires at `possibleShots[0]` — the first hittable enemy in
list order (the source's "TODO - pick best." is not implemented) — and
otherwise the turn is ended. -/
def getActionsForGameState (tf : TargetFinderEnv) (team : Nat)
    (gs : GameState) : Except String (List AiItem) :=
  match gs.gamePhase with
  | .characterPlacement => .ok [.placeCharacterItem]
  | .combat =>
    match gs.getSelectedCharacter, gs.selectedCharacterState with
    | none, _ => .error "Expected a selected character and state"
    | some _, none => .error "Expected a selected character and state"
    | some selectedCharacter, some _ =>
      match gs.getEnemyFlag with
      | none => .error "TypeError: no enemy flag"
      | some enemyFlag =>
        let isFlagCarrier :=
          selectedCharacter.tileCoords.equals enemyFlag.tileCoords
        if isFlagCarrier && !selectedCharacter.hasMoved then
          getActionsForFlagCarrrier gs
        else if !selectedCharacter.hasMoved && !selectedCharacter.hasShot then
          getHasntMovedNorShot tf team selectedCharacter gs
        else if !selectedCharacter.hasShot then
          match getEnemyTargetsInDirectSight tf team
              (Grid.tileCenterCanvas selectedCharacter.tileCoords) gs with
          | possibleShot :: _ => .ok (getShootSequence possibleShot)
          | [] => .ok [.endTurn]
        else .ok [.endTurn]

/-- The loop of `Ai.getClosestSelectableTileToLocationWithFewestDirectHits`:
keep the tile with fewer direct enemy sightlines, tie-broken by shorter
path to the goal (initial sentinel: distance 10000, hits 100). -/
def bestTileLoop (tf : TargetFinderEnv) (team : Nat) (tileLocation : Point)
    (gs : GameState) : List Point → Point × Nat × Nat → Point × Nat × Nat
  | [], best => best
  | selectableTile :: rest, best =>
    let pathToLocation := tf.getPath selectableTile tileLocation
    let directHits := (getEnemyTargetsInDirectSight tf team
      (Grid.tileCenterCanvas selectableTile) gs).length
    let best' :=
      if directHits < best.2.2 ||
          (directHits == best.2.2 && pathToLocation.length < best.2.1) then
        (selectableTile, pathToLocation.length, directHits)
      else best
    bestTileLoop tf team tileLocation gs rest best'

/-- `Ai.getClosestSelectableTileToLocationWithFewestDirectHits`. When
`selectableTiles` is empty the source returns `undefined`; tile (0,0)
stands in for that unreachable case. -/
def getClosestSelectableTileToLocationWithFewestDirectHits
    (tf : TargetFinderEnv) (team : Nat) (tileLocation : Point)
    (gs : GameState) : Point :=
  (bestTileLoop tf team tileLocation gs gs.selectableTiles
    (gs.selectableTiles.headD ⟨0, 0⟩, 10000, 100)).1

/-- `Ai.placeCharacter`: the first spawn tile without enemies in direct
sight, else the first legal tile (`undefined` on an empty legal set;
tile (0,0) stands in for that unreachable case). -/
def placeCharacter (tf : TargetFinderEnv) (team : Nat) (gs : GameState) :
    Action :=
  match gs.selectableTiles.find? (fun tile =>
      (getEnemyTargetsInDirectSight tf team (Grid.tileCenterCanvas tile)
        gs).length == 0) with
  | some tile => .selectTile tile
  | none => .selectTile (gs.selectableTiles.headD ⟨0, 0⟩)

/-- The meaning of each `ActionSequenceItem` closure: the action it
produces when pulled from the queue with the then-current game state. -/
def runAiItem (tf : TargetFinderEnv) (team : Nat) :
    AiItem → GameState → Except String Action
  | .placeCharacterItem, gs => .ok (placeCharacter tf team gs)
  | .startMoving, _ => .ok (.selectCharacterState .moving)
  | .thenMoveHasntMovedNorShot, gs =>
    let tileAndDirectHits := gs.selectableTiles.map (fun selectableTile =>
      (selectableTile, (getEnemyTargetsInDirectSight tf team
        (Grid.tileCenterCanvas selectableTile) gs).length))
    (match tileAndDirectHits.find? (fun p => p.2 == 1) with
      | some bestTileAndHits => .ok (.selectTile bestTileAndHits.1)
      | none =>
        match gs.getActiveTeamFlag, gs.getEnemyFlag with
        | some activeFlag, some enemyFlag =>
          let targetTile := if gs.enemyHasFlag then activeFlag.tileCoords
            else enemyFlag.tileCoords
          .ok (.selectTile
            (getClosestSelectableTileToLocationWithFewestDirectHits tf team
              targetTile gs))
        | _, _ => .error "TypeError: flag missing")
  | .thenMoveSafe tileLocation, gs =>
    .ok (.selectTile (getClosestSelectableTileToLocationWithFewestDirectHits
      tf team tileLocation gs))
  | .startAiming, _ => .ok (.selectCharacterState .aiming)
  | .thenAim aimAngleClockwiseRadians, _ => .ok (.aim aimAngleClockwiseRadians)
  | .thenShoot, _ => .ok .shoot
  | .endTurn, _ => .ok .endCharacterTurn

end Ai

/-! ## Claim theorems: AI target selection (C6) -/

/-- Modelled from the spec: a targeting environment for a field with
unobstructed lines of fire — a traced projectile lands on the tile its
ray points at (spec §4.1 with no intervening occupants). The angle
encoding is an arbitrary injective rational encoding of the direction;
`getPath` is irrelevant to the shooting branch. -/
def clearSightEnv : TargetFinderEnv :=
  { getPointRotationRadians := fun d => (d.x : ℚ) * 1000 + (d.y : ℚ)
    getProjectileTarget := fun _ _ _ ray _ =>
      ⟨Grid.getTileFromCanvasCoords (ray.origin.add ray.direction)⟩
    getPath := fun _ _ => [] }

/-- C6 fixture: far enemy, first in the character list (team 0,
health 50, Manhattan distance 20 from the shooter). -/
def c6enemyFar : Character := { testCharacter ⟨10, 10⟩ 50 with index := 0 }

/-- C6 fixture: near enemy, second in the list (team 0, health 50,
distance 1). -/
def c6enemyNear : Character :=
  { testCharacter ⟨1, 0⟩ 50 with index := 1 }

/-- C6 fixture: the AI-controlled shooter (team 1) that already moved
but has not shot. -/
def c6shooter : Character :=
  { testCharacter ⟨0, 0⟩ 100 with teamIndex := 1, hasMoved := true }

/-- C6 fixture game state: both enemies in direct sight, flags far from
everyone. -/
def c6gs : GameState :=
  { gamePhase := .combat
    currentTeamIndex := 1
    characters := [c6enemyFar, c6enemyNear, c6shooter]
    obstacles := []
    flags := [⟨⟨19, 14⟩, 0, false⟩, ⟨⟨0, 14⟩, 1, false⟩]
    selectableTiles := []
    selectedCharacterIndex := some 2
    selectedCharacterState := some .awaiting }

/-- The shot the AI picks in the C6 fixture: at the far enemy. -/
def c6sdFar : ShotDetails :=
  ⟨clearSightEnv.getPointRotationRadians ⟨400, 400⟩, ⟨⟨10, 10⟩⟩⟩

/-- The shot at the near enemy in the C6 fixture. -/
def c6sdNear : ShotDetails :=
  ⟨clearSightEnv.getPointRotationRadians ⟨40, 0⟩, ⟨⟨1, 0⟩⟩⟩

/-- C6 counterexample: both enemies have equal health (50) and both are
hittable, yet the AI shoots the FIRST one in enemy-list order — the
one at Manhattan distance 20 — not the one at distance 1: candidate
preference by health/distance/own-flag is not implemented (the source
reads `possibleShots[0]` under a "TODO - pick best." comment). -/
theorem c6_prefers_list_order_counterexample :
    ((Ai.getEnemyTargetsInDirectSight clearSightEnv 1
        (Grid.tileCenterCanvas ⟨0, 0⟩) c6gs).map (fun s => s.target.tile)
      = [⟨10, 10⟩, ⟨1, 0⟩]) ∧
    (Ai.getActionsForGameState clearSightEnv 1 c6gs
      = .ok (Ai.getShootSequence c6sdFar)) ∧
    (c6enemyFar.health = c6enemyNear.health) ∧
    (c6shooter.tileCoords.manhattanDistanceTo c6enemyFar.tileCoords = 20) ∧
    (c6shooter.tileCoords.manhattanDistanceTo c6enemyNear.tileCoords = 1) := by
  exact ⟨rfl, rfl, rfl, by decide, by decide⟩

/-- C6 amended: whenever the selected character has moved but not shot
(and is not carrying the enemy flag), the AI fires at
`possibleShots[0]`, the first enemy of the game state's enemy list that
the targeting oracle reports as hittable — irrespective of health,
distance or flags; and the candidate list enumerates exactly the
hittable enemies in list order, each shot resolving to that enemy's
tile. -/
theorem c6_ai_fires_at_first_hittable_enemy :
    (∀ (tf : TargetFinderEnv) (team : Nat) (gs : GameState) (c : Character)
        (ef : Flag) (sd : ShotDetails) (rest : List ShotDetails),
      gs.gamePhase = .combat →
      gs.getSelectedCharacter = some c →
      gs.selectedCharacterState.isSome = true →
      gs.getEnemyFlag = some ef →
      c.tileCoords.equals ef.tileCoords = false →
      c.hasMoved = true → c.hasShot = false →
      Ai.getEnemyTargetsInDirectSight tf team
          (Grid.tileCenterCanvas c.tileCoords) gs = sd :: rest →
      Ai.getActionsForGameState tf team gs = .ok (Ai.getShootSequence sd)) ∧
    (∀ (tf : TargetFinderEnv) (team : Nat) (fromCanvas : Point)
        (gs : GameState),
      (Ai.getEnemyTargetsInDirectSight tf team fromCanvas gs).map
          (fun s => s.target.tile)
        = ((gs.getEnemyCharacters).filter (fun enemy =>
            (tf.getProjectileTarget gs.getAliveCharacters gs.obstacles team
              ⟨fromCanvas,
                (Grid.tileCenterCanvas enemy.tileCoords).subtract fromCanvas⟩
              (Grid.getTileFromCanvasCoords fromCanvas)).tile.equals
              enemy.tileCoords)).map (fun e => e.tileCoords)) := by
  have hloop : ∀ (tf : TargetFinderEnv) (team : Nat)
      (fromCanvas fromTile : Point) (chars : List Character)
      (obs : List Point) (enemies : List Character),
      (Ai.enemySightLoop tf team fromCanvas fromTile chars obs enemies).map
          (fun s => s.target.tile)
        = (enemies.filter (fun enemy =>
            (tf.getProjectileTarget chars obs team
              ⟨fromCanvas,
                (Grid.tileCenterCanvas enemy.tileCoords).subtract fromCanvas⟩
              fromTile).tile.equals enemy.tileCoords)).map
            (fun e => e.tileCoords) := by
    intro tf team fromCanvas fromTile chars obs enemies
    induction enemies with
    | nil => rfl
    | cons enemy rest ih =>
      by_cases h : (tf.getProjectileTarget chars obs team
          ⟨fromCanvas,
            (Grid.tileCenterCanvas enemy.tileCoords).subtract fromCanvas⟩
          fromTile).tile.equals enemy.tileCoords = true
      · simp only [Ai.enemySightLoop, List.filter_cons, h, if_true,
          List.map_cons, ih]
        exact congrArg (fun p => p :: _) ((Point.equals_iff _ _).mp h)
      · simp only [Bool.not_eq_true] at h
        simp only [Ai.enemySightLoop, List.filter_cons, h, Bool.false_eq_true,
          if_false, ih]
  refine ⟨?_, ?_⟩
  · intro tf team gs c ef sd rest hphase hsel hstate hef hflag hmoved hshot
      hshots
    obtain ⟨st, hst⟩ := Option.isSome_iff_exists.mp hstate
    simp [Ai.getActionsForGameState, hphase, hsel, hst, hef, hflag, hmoved,
      hshot, hshots]
  · intro tf team fromCanvas gs
    exact hloop tf team fromCanvas (Grid.getTileFromCanvasCoords fromCanvas)
      gs.getAliveCharacters gs.obstacles gs.getEnemyCharacters

/-- Witness for C6 amended at the concrete fixture: the AI's plan is
exactly the shoot sequence for the first hittable enemy (the far one),
and the candidate tiles are both enemies in list order. -/
theorem c6_ai_fires_at_first_hittable_enemy_witness :
    (Ai.getActionsForGameState clearSightEnv 1 c6gs
      = .ok (Ai.getShootSequence c6sdFar)) ∧
    ((Ai.getEnemyTargetsInDirectSight clearSightEnv 1
        (Grid.tileCenterCanvas ⟨0, 0⟩) c6gs).map (fun s => s.target.tile)
      = ((c6gs.getEnemyCharacters).filter (fun enemy =>
          (clearSightEnv.getProjectileTarget c6gs.getAliveCharacters
            c6gs.obstacles 1
            ⟨Grid.tileCenterCanvas ⟨0, 0⟩,
              (Grid.tileCenterCanvas enemy.tileCoords).subtract
                (Grid.tileCenterCanvas ⟨0, 0⟩)⟩
            (Grid.getTileFromCanvasCoords
              (Grid.tileCenterCanvas ⟨0, 0⟩))).tile.equals
            enemy.tileCoords)).map (fun e => e.tileCoords)) :=
  ⟨c6_ai_fires_at_first_hittable_enemy.1 clearSightEnv 1 c6gs c6shooter
      ⟨⟨19, 14⟩, 0, false⟩ c6sdFar [c6sdNear] rfl rfl rfl rfl (by decide)
      rfl rfl rfl,
    c6_ai_fires_at_first_hittable_enemy.2 clearSightEnv 1
      (Grid.tileCenterCanvas ⟨0, 0⟩) c6gs⟩

end SnagTheFlag
